import Mathlib

/-!
Shallow embedding of core/domain/stats_jobs_continuous.py (statistics
continuous-computation jobs for explorations) together with proofs about the
embedded operations.

Conventions used throughout:
- Python ints and millisecond timestamps are modelled as Lean Int.
- A Python dict / collections.defaultdict is modelled by DMap: the list of
  inserted keys (key presence) together with a total valuation function whose
  value on never-inserted keys is the defaultdict default.
- Python sets of session ids are modelled as Finset String.
- Fallible external lookups (EntityNotFoundError) are modelled as Option.
- External collaborators (exp_services, the datastore, the job framework's
  cutoff test, registries) are passed in as explicit environments.
-/

namespace Oppia

/-- Counts contributions from all versions (VERSION_ALL in the source). -/
def VERSION_ALL : String := "all"

/-- Indicates that no version has been specified (VERSION_NONE). -/
def VERSION_NONE : String := "none"

/-- Name of the historical pseudo-terminal state (OLD_END_DEST). -/
def OLD_END_DEST : String := "END"

/-- Event-type constant from the external feconf module.  The jobs only
compare these strings for equality, so any pairwise-distinct values are a
faithful model. -/
def EVENT_TYPE_START_EXPLORATION : String := "start_exploration"

/-- Event-type constant from feconf; see EVENT_TYPE_START_EXPLORATION. -/
def EVENT_TYPE_COMPLETE_EXPLORATION : String := "complete_exploration"

/-- Event-type constant from feconf; see EVENT_TYPE_START_EXPLORATION. -/
def EVENT_TYPE_MAYBE_LEAVE_EXPLORATION : String := "maybe_exit_exploration"

/-- Event-type constant from feconf; see EVENT_TYPE_START_EXPLORATION. -/
def EVENT_TYPE_STATE_HIT : String := "state_hit"

/-- The date the StateCounterModel was retired
(_STATE_COUNTER_CUTOFF_DATE, 2014-10-11), in milliseconds since the epoch.
Only its position on the time axis matters to the jobs. -/
def STATE_COUNTER_CUTOFF_DATE : Int := 1412985600000

/-- Model of a Python dict (and collections.defaultdict): the list of keys
that are present, plus a total valuation whose result on absent keys is the
defaultdict default value baked in at creation time. -/
structure DMap (α β : Type) where
  keys : List α
  val : α → β

/-- An empty dict whose defaultdict default value is d. -/
def DMap.empty {α β : Type} (d : β) : DMap α β := ⟨[], fun _ => d⟩

/-- Store b under key a (a Python dict item assignment, or a defaultdict
access followed by in-place mutation). -/
def DMap.set {α β : Type} [DecidableEq α] (m : DMap α β) (a : α) (b : β) :
    DMap α β :=
  ⟨if a ∈ m.keys then m.keys else m.keys ++ [a],
   fun x => if x = a then b else m.val x⟩

/-- The slice of an exploration domain object that the reduce step reads:
the state names, the initial state name, the version number and the
last-updated timestamp (milliseconds). -/
structure Exploration where
  states : List String
  init_state_name : String
  version : Nat
  last_updated : Int
deriving DecidableEq

/-- External exploration lookup services used by the reduce step:
exp_services.get_exploration_by_id (latest version), the same with an
explicit version string, and exp_models.ExplorationModel.get_version.
A missing exploration or version is none (EntityNotFoundError). -/
structure ExpEnv where
  get_exploration_by_id : String → Option Exploration
  get_exploration_by_id_version : String → String → Option Exploration
  get_version : String → Nat → Option Exploration

/-- A mapper output value: either a StateCounterModel payload
(type 'counter') or an event-log payload (type 'event').  These are the
dicts produced by StatisticsMRJobManager.map; stringification through the
MapReduce shuffle and ast.literal_eval on the reduce side are assumed to
round-trip. -/
inductive Value where
  | counter (exploration_id : String) (version : String) (state_name : String)
      (first_entry_count : Int) (subsequent_entries_count : Int)
      (resolved_answer_count : Int) (active_answer_count : Int)
  | event (event_type : String) (session_id : String)
      (state_name : Option String) (created_on : Int)
      (exploration_id : String) (version : String)
deriving DecidableEq

/-- An entity handed to StatisticsMRJobManager.map: a StateCounterModel
(with its datastore id and created-on timestamp) or one of the four
event-log entry models. -/
inductive MapItem where
  | stateCounter (id : String) (created_on : Int) (first_entry_count : Int)
      (subsequent_entries_count : Int) (resolved_answer_count : Int)
      (active_answer_count : Int)
  | eventLog (event_type : String) (session_id : String)
      (state_name : Option String) (created_on : Int)
      (exploration_id : String) (exploration_version : Option Nat)
deriving DecidableEq

/-- Model of Python's str.split on a single-character separator (used for
key.split(':') and, indirectly, for locating the first '.' of a
StateCounterModel id): split at every occurrence of the separator. -/
def splitOnCharAux (c : Char) : List Char → List Char → List (List Char)
  | [], cur => [cur.reverse]
  | x :: xs, cur =>
    if x = c then cur.reverse :: splitOnCharAux c xs []
    else splitOnCharAux c xs (x :: cur)

/-- Split a string at every occurrence of the character c, Python
str.split-style. -/
def splitOnChar (c : Char) (s : String) : List String :=
  (splitOnCharAux c s.toList []).map List.asString

/-- Split a StateCounterModel id at the first dot into exploration id and
state name, as the map step does with str.find and slicing.  When no dot is
present, Python's find returns -1, so the slices are id[:-1] (all but the
last character) and id[0:] (the whole id). -/
def parseCounterId (id : String) : String × String :=
  match splitOnChar '.' id with
  | [only] => (only.toList.dropLast.asString, only)
  | first :: rest => (first, String.intercalate "." rest)
  | [] => ("", "")

/-- Modelled from the spec: the job framework's
_entity_created_before_job_queued test, which is not part of this file's
source.  The spec says the job fixes a cutoff timestamp at start and
processes exactly the entities that existed before it. -/
def entityCreatedBeforeJobQueued (cutoff : Int) (created_on : Int) : Bool :=
  created_on < cutoff

namespace StatisticsMRJobManager

/-- StatisticsMRJobManager.map.  Yields (key, value) pairs; the job
framework's cutoff test is the explicit cutoff parameter. -/
def map (cutoff : Int) (item : MapItem) : List (String × Value) :=
  match item with
  | .stateCounter id created_on fec sec rac aac =>
    if entityCreatedBeforeJobQueued cutoff created_on then
      let p := parseCounterId id
      let exploration_id := p.1
      let state_name := p.2
      let value := Value.counter exploration_id VERSION_NONE state_name
        fec sec rac aac
      [(exploration_id ++ ":" ++ VERSION_NONE, value),
       (exploration_id ++ ":" ++ VERSION_ALL, value)]
    else []
  | .eventLog event_type session_id state_name created_on exploration_id
      exploration_version =>
    if entityCreatedBeforeJobQueued cutoff created_on then
      let version := match exploration_version with
        | none => VERSION_NONE
        | some n => toString n
      let value := Value.event event_type session_id state_name created_on
        exploration_id version
      [(exploration_id ++ ":" ++ version, value),
       (exploration_id ++ ":" ++ VERSION_ALL, value)]
    else []

end StatisticsMRJobManager

/-- Per-reduce-key bucket of per-state statistics: one entry of the
state_hit_counts dict. -/
structure StateHitCount where
  total_entry_count : Int
  first_entry_count : Int
  no_answer_count : Int
deriving DecidableEq

/-- The local accumulators of StatisticsMRJobManager.reduce, named after the
local variables in the source. -/
structure ReduceAcc where
  new_models_start_count : Int
  new_models_complete_count : Int
  new_models_end_sessions : Finset String
  session_id_to_latest_leave_evt : DMap String (Int × Option String)
  old_models_start_count : Int
  old_models_complete_count : Int
  state_hit_counts : DMap (Option String) StateHitCount
  state_session_ids : DMap (Option String) (Finset String)

/-- The accumulators as initialized before the event loop: zero counters,
empty session sets, and a zeroed state_hit_counts / state_session_ids entry
for every state of the resolved exploration (both dicts are defaultdicts,
so absent keys read as the zero bucket and the empty set respectively;
session_id_to_latest_leave_evt defaults to (0, '')). -/
def initAcc (exploration : Exploration) : ReduceAcc :=
  { new_models_start_count := 0
    new_models_complete_count := 0
    new_models_end_sessions := ∅
    session_id_to_latest_leave_evt := DMap.empty (0, some "")
    old_models_start_count := 0
    old_models_complete_count := 0
    state_hit_counts := exploration.states.foldl
      (fun m state_name => m.set (some state_name) ⟨0, 0, 0⟩)
      (DMap.empty ⟨0, 0, 0⟩)
    state_session_ids := exploration.states.foldl
      (fun m state_name => m.set (some state_name) ∅)
      (DMap.empty ∅) }

/-- One iteration of the reduce step's main loop over stringified_values.
In the counter branch, the source's three consecutive in-place additions on
the same dict entry are expressed as a single DMap.set of the combined
bucket; in the maybe-leave branch, reading the defaultdict entry inserts
the default (0, '') for an absent session id before the comparison. -/
def processValue (exploration : Exploration) (acc : ReduceAcc)
    (value : Value) : ReduceAcc :=
  match value with
  | .counter _exploration_id _version state_name fec sec rac aac =>
    let acc1 :=
      if state_name = exploration.init_state_name then
        { acc with old_models_start_count := fec }
      else acc
    if state_name = OLD_END_DEST then
      { acc1 with old_models_complete_count := fec }
    else
      let b := acc1.state_hit_counts.val (some state_name)
      { acc1 with
        state_hit_counts := acc1.state_hit_counts.set (some state_name)
          { b with
            no_answer_count := b.no_answer_count + (fec + sec - rac - aac)
            first_entry_count := b.first_entry_count + fec
            total_entry_count := b.total_entry_count + (fec + sec) } }
  | .event event_type session_id state_name created_on _exploration_id
      _version =>
    if event_type = EVENT_TYPE_START_EXPLORATION then
      { acc with
        new_models_start_count := acc.new_models_start_count + 1 }
    else if event_type = EVENT_TYPE_COMPLETE_EXPLORATION then
      { acc with
        new_models_complete_count := acc.new_models_complete_count + 1
        new_models_end_sessions :=
          insert session_id acc.new_models_end_sessions }
    else if event_type = EVENT_TYPE_MAYBE_LEAVE_EXPLORATION then
      let m0 := acc.session_id_to_latest_leave_evt
      let m1 := m0.set session_id (m0.val session_id)
      let latest_timestamp_so_far := (m1.val session_id).1
      if latest_timestamp_so_far < created_on then
        { acc with
          session_id_to_latest_leave_evt :=
            m1.set session_id (created_on, state_name) }
      else
        { acc with session_id_to_latest_leave_evt := m1 }
    else if event_type = EVENT_TYPE_STATE_HIT then
      let b := acc.state_hit_counts.val state_name
      { acc with
        state_hit_counts := acc.state_hit_counts.set state_name
          { b with total_entry_count := b.total_entry_count + 1 }
        state_session_ids := acc.state_session_ids.set state_name
          (insert session_id (acc.state_session_ids.val state_name)) }
    else acc

/-- The loop that follows the event loop: for every state in
state_session_ids, add the number of distinct session ids that hit the
state to its first_entry_count. -/
def addFirstEntryCounts (acc : ReduceAcc) :
    DMap (Option String) StateHitCount :=
  acc.state_session_ids.keys.foldl
    (fun shc state_name =>
      shc.set state_name
        { shc.val state_name with
          first_entry_count := (shc.val state_name).first_entry_count +
            ((acc.state_session_ids.val state_name).card : Int) })
    acc.state_hit_counts

/-- The abandonment loop: the sessions with a recorded maybe-leave event,
minus the sessions that reached a true completion, each contribute one
no_answer_count increment to the state of their latest recorded
maybe-leave event.  The source iterates over a set difference of the dict
keys; as the keys list has no duplicates, filtering it by non-membership in
new_models_end_sessions visits exactly the same session ids. -/
def addNoAnswerCounts (acc : ReduceAcc)
    (shc : DMap (Option String) StateHitCount) :
    DMap (Option String) StateHitCount :=
  (acc.session_id_to_latest_leave_evt.keys.filter
      (fun session_id => session_id ∉ acc.new_models_end_sessions)).foldl
    (fun m session_id =>
      m.set (acc.session_id_to_latest_leave_evt.val session_id).2
        { m.val (acc.session_id_to_latest_leave_evt.val session_id).2 with
          no_answer_count :=
            (m.val
              (acc.session_id_to_latest_leave_evt.val
                session_id).2).no_answer_count + 1 })
    shc

/-- The record written by stats_models.ExplorationAnnotationsModel.create at
the end of the reduce step, with exactly the fields that call passes. -/
structure ExplorationAnnotationsRecord where
  exp_id : String
  version : String
  num_starts : Int
  num_completions : Int
  state_hit_counts : DMap (Option String) StateHitCount

/-- The VERSION_NONE rewind loop of the reduce step: starting from the
latest version, as long as the exploration's last-updated time is after the
StateCounterModel cutoff and more than one version remains, step back one
version.  The first argument is the source's current_version; a failing
get_version surfaces as none (EntityNotFoundError, caught by the caller). -/
def rewindToCutoff (env : ExpEnv) (exp_id : String) :
    Nat → Exploration → Option Exploration
  | 0, exploration => some exploration
  | 1, exploration => some exploration
  | Nat.succ (Nat.succ n), exploration =>
    if STATE_COUNTER_CUTOFF_DATE < exploration.last_updated then
      match env.get_version exp_id (n + 1) with
      | none => none
      | some e2 => rewindToCutoff env exp_id (n + 1) e2
    else some exploration

/-- The exploration-resolution preamble of the reduce step: VERSION_NONE
resolves the latest version and rewinds past the StateCounterModel cutoff,
VERSION_ALL resolves the latest version, and any other version string is
looked up directly.  none models the caught EntityNotFoundError. -/
def resolveExploration (env : ExpEnv) (exp_id : String) (version : String) :
    Option Exploration :=
  if version = VERSION_NONE then
    match env.get_exploration_by_id exp_id with
    | none => none
    | some exploration =>
      rewindToCutoff env exp_id exploration.version exploration
  else if version = VERSION_ALL then
    env.get_exploration_by_id exp_id
  else
    env.get_exploration_by_id_version exp_id version

namespace StatisticsMRJobManager

/-- StatisticsMRJobManager.reduce.  Returns the created
ExplorationAnnotationsModel record, or none when the key does not parse
into two colon-separated parts (an uncaught unpacking error in the source)
or the exploration cannot be resolved (the caught EntityNotFoundError,
after which the source returns without writing anything). -/
def reduce (env : ExpEnv) (key : String) (values : List Value) :
    Option ExplorationAnnotationsRecord :=
  match splitOnChar ':' key with
  | [exp_id, version] =>
    match resolveExploration env exp_id version with
    | none => none
    | some exploration =>
      let acc := values.foldl (processValue exploration)
        (initAcc exploration)
      let shc := addNoAnswerCounts acc (addFirstEntryCounts acc)
      some
        { exp_id := exp_id
          version := version
          num_starts :=
            acc.old_models_start_count + acc.new_models_start_count
          num_completions :=
            acc.old_models_complete_count + acc.new_models_complete_count
          state_hit_counts := shc }
  | _ => none

end StatisticsMRJobManager

/-- StatisticsRealtimeModel: the realtime (live-tier) counter record, with
the ndb property defaults num_starts = 0 and num_completions = 0. -/
structure StatisticsRealtimeModel where
  num_starts : Int := 0
  num_completions : Int := 0
deriving DecidableEq

/-- Modelled from the spec: the job framework's realtime id for a counter,
keyed by the active realtime layer (generation) and the exploration id.
The jobs use it only as an opaque datastore key. -/
def getRealtimeId (active_realtime_layer : Nat) (exp_id : String) : String :=
  toString active_realtime_layer ++ ":" ++ exp_id

/-- The realtime datastore, keyed by realtime id; none models a missing
entity under strict=False. -/
def RtStore : Type := String → Option StatisticsRealtimeModel

namespace StatisticsAggregator

/-- StatisticsAggregator._handle_incoming_event: inside a transaction,
create the realtime counter with count 1 if absent, else increment it in
place.  A start-exploration event drives the visit counter; any other
event type the aggregator listens to (completion) drives the completion
counter.  Returns the updated store. -/
def handle_incoming_event (store : RtStore)
    (active_realtime_layer : Nat) (event_type : String) (exp_id : String) :
    RtStore :=
  let realtime_model_id := getRealtimeId active_realtime_layer exp_id
  if event_type = EVENT_TYPE_START_EXPLORATION then
    fun k =>
      if k = realtime_model_id then
        match store realtime_model_id with
        | none => some { num_starts := 1 }
        | some model => some { model with num_starts := model.num_starts + 1 }
      else store k
  else
    fun k =>
      if k = realtime_model_id then
        match store realtime_model_id with
        | none => some { num_completions := 1 }
        | some model =>
          some { model with num_completions := model.num_completions + 1 }
      else store k

end StatisticsAggregator

/-- A stored ExplorationAnnotationsModel as read back by the query facade:
the batch-written counts plus the storage layer's last_updated timestamp
(milliseconds). -/
structure StoredAnnotationsModel where
  num_starts : Int
  num_completions : Int
  state_hit_counts : DMap (Option String) StateHitCount
  last_updated : Int

/-- Modelled from the spec: ExplorationAnnotationsModel.get_entity_id, the
canonical-store key for an (exploration id, version-scope) pair.  The jobs
use it only as an opaque key; both query paths build it the same way. -/
def getEntityId (exploration_id : String) (exploration_version : String) :
    String :=
  exploration_id ++ ":" ++ exploration_version

/-- The read-side environment of the query facade: the canonical
annotations store, the realtime store, and (modelled from the spec) the
framework's active-realtime-layer id for an exploration, which
get_active_realtime_layer_id and get_multi_active_realtime_layer_ids both
compute per exploration id. -/
structure QueryEnv where
  annotations_store : String → Option StoredAnnotationsModel
  realtime_store : String → Option StatisticsRealtimeModel
  active_realtime_layer_id : String → String

/-- The dict returned by StatisticsAggregator.get_statistics. -/
structure StatisticsDict where
  start_exploration_count : Int
  complete_exploration_count : Int
  state_hit_counts : DMap (Option String) StateHitCount
  last_updated : Option Int

namespace StatisticsAggregator

/-- StatisticsAggregator.get_statistics: start from zero counts and an
empty dict, add the canonical snapshot's counts if it exists, then add the
realtime counter's counts if it exists. -/
def get_statistics (env : QueryEnv) (exploration_id : String)
    (exploration_version : String) : StatisticsDict :=
  let entity_id := getEntityId exploration_id exploration_version
  let mr_model := env.annotations_store entity_id
  let base : StatisticsDict :=
    match mr_model with
    | some m =>
      { start_exploration_count := 0 + m.num_starts
        complete_exploration_count := 0 + m.num_completions
        state_hit_counts := m.state_hit_counts
        last_updated := some m.last_updated }
    | none =>
      { start_exploration_count := 0
        complete_exploration_count := 0
        state_hit_counts := DMap.empty ⟨0, 0, 0⟩
        last_updated := none }
  let realtime_model :=
    env.realtime_store (env.active_realtime_layer_id exploration_id)
  match realtime_model with
  | some r =>
    { base with
      start_exploration_count := base.start_exploration_count + r.num_starts
      complete_exploration_count :=
        base.complete_exploration_count + r.num_completions }
  | none => base

/-- StatisticsAggregator.get_views_multi: one batched get_multi against the
canonical store for the VERSION_ALL keys, one batched get_multi against the
realtime store, then the positional sum of num_starts with absent entries
contributing 0. -/
def get_views_multi (env : QueryEnv) (exploration_ids : List String) :
    List Int :=
  let entity_ids := exploration_ids.map
    (fun exploration_id => getEntityId exploration_id VERSION_ALL)
  let mr_models := entity_ids.map env.annotations_store
  let realtime_model_ids :=
    exploration_ids.map env.active_realtime_layer_id
  let realtime_models := realtime_model_ids.map env.realtime_store
  (List.range exploration_ids.length).map
    (fun i =>
      (match mr_models.getD i none with
        | some m => m.num_starts
        | none => 0) +
      (match realtime_models.getD i none with
        | some r => r.num_starts
        | none => 0))

end StatisticsAggregator

/-- A StateAnswersModel payload as seen by the answer-summaries reduce step
after ast.literal_eval: the fields the map step copies out of the model.
Answers themselves are opaque to the job, hence the type parameter. -/
structure StateAnswersDict (α : Type) where
  exploration_id : String
  exploration_version : String
  state_name : String
  interaction_id : String
  submitted_answer_list : List α

/-- The external registries used by the answer-summaries reduce step:
interaction_registry (the ordered calculation ids registered for an
interaction id) and calculation_registry plus the calculation's
calculate_from_state_answers_dict, modelled as a function from the
calculation id and the combined answers dict to the saved output. -/
structure AnswersJobEnv (α ω : Type) where
  answer_calculation_ids : String → List String
  calculate_from_state_answers_dict :
    String → StateAnswersDict α → ω

namespace InteractionAnswerSummariesMRJobManager

/-- InteractionAnswerSummariesMRJobManager.reduce: take the interaction id
from the first value, concatenate every value's submitted_answer_list into
the combined answers dict, and run every calculation registered for that
interaction id on it.  Returns the combined dict plus the saved
calculation outputs; none models the uncaught errors on a key that does
not split into three parts or an empty value list (an index error on
element 0). -/
def reduce {α ω : Type} (env : AnswersJobEnv α ω) (key : String)
    (state_answers_dicts : List (StateAnswersDict α)) :
    Option (StateAnswersDict α × List ω) :=
  match splitOnChar ':' key with
  | [exploration_id, exploration_version, state_name] =>
    match state_answers_dicts with
    | [] => none
    | first :: _ =>
      let interaction_id := first.interaction_id
      let combined_state_answers : StateAnswersDict α :=
        { exploration_id := exploration_id
          exploration_version := exploration_version
          state_name := state_name
          interaction_id := interaction_id
          submitted_answer_list :=
            (state_answers_dicts.map
              (fun d => d.submitted_answer_list)).flatten }
      let calc_ids := env.answer_calculation_ids interaction_id
      some (combined_state_answers,
        calc_ids.map
          (fun calc_id => env.calculate_from_state_answers_dict calc_id
            combined_state_answers))
  | _ => none

end InteractionAnswerSummariesMRJobManager

/-! Specification-side counting functions.  These translate the quantities
the claims speak about (numbers of events of a kind, distinct sessions,
legacy contributions, retained maybe-leave events) into definitions that
can be compared against the reduce step. -/

/-- Is this value a legacy StateCounterModel record (type 'counter')? -/
def Value.isCounterValue : Value → Bool
  | .counter _ _ _ _ _ _ _ => true
  | .event _ _ _ _ _ _ => false

/-- Is this value a start-exploration event? -/
def Value.isStartEvent : Value → Bool
  | .event event_type _ _ _ _ _ =>
    decide (event_type = EVENT_TYPE_START_EXPLORATION)
  | _ => false

/-- Is this value a complete-exploration event? -/
def Value.isCompleteEvent : Value → Bool
  | .event event_type _ _ _ _ _ =>
    decide (event_type = EVENT_TYPE_COMPLETE_EXPLORATION)
  | _ => false

/-- Is this value a state-hit event whose state name is k? -/
def Value.isStateHitAt (k : Option String) : Value → Bool
  | .event event_type _ state_name _ _ _ =>
    decide (event_type = EVENT_TYPE_STATE_HIT) && decide (state_name = k)
  | _ => false

/-- Is this value a maybe-leave event of session sid? -/
def Value.isMaybeLeaveOf (sid : String) : Value → Bool
  | .event event_type session_id _ _ _ _ =>
    decide (event_type = EVENT_TYPE_MAYBE_LEAVE_EXPLORATION) &&
      decide (session_id = sid)
  | _ => false

/-- The created-on timestamp of an event value (0 for counter values,
which carry none). -/
def Value.created_on_of : Value → Int
  | .event _ _ _ created_on _ _ => created_on
  | .counter _ _ _ _ _ _ _ => 0

/-- The number of start-exploration events among the reduce values. -/
def numStartEvents (vs : List Value) : Int :=
  ((vs.filter Value.isStartEvent).length : Int)

/-- The number of complete-exploration events among the reduce values. -/
def numCompleteEvents (vs : List Value) : Int :=
  ((vs.filter Value.isCompleteEvent).length : Int)

/-- The number of state-hit events at state k among the reduce values. -/
def numStateHits (vs : List Value) (k : Option String) : Int :=
  ((vs.filter (Value.isStateHitAt k)).length : Int)

/-- The set of distinct session ids of state-hit events at state k. -/
def distinctHitSessions (vs : List Value) (k : Option String) :
    Finset String :=
  (vs.filterMap (fun v =>
    match v with
    | .event event_type session_id state_name _ _ _ =>
      if event_type = EVENT_TYPE_STATE_HIT ∧ state_name = k then
        some session_id
      else none
    | _ => none)).toFinset

/-- One step of the legacy start-count accumulation: a counter record at
the initial state overwrites the running value with its
first_entry_count. -/
def legacyStartStep (init_state_name : String) (r : Int) (v : Value) : Int :=
  match v with
  | .counter _ _ state_name fec _ _ _ =>
    if state_name = init_state_name then fec else r
  | _ => r

/-- The legacy start count extracted from the values: the
first_entry_count of the last counter record at the initial state, 0 when
there is none. -/
def legacyStartCount (init_state_name : String) (vs : List Value) : Int :=
  vs.foldl (legacyStartStep init_state_name) 0

/-- One step of the legacy completion-count accumulation: a counter record
at the END pseudostate overwrites the running value with its
first_entry_count. -/
def legacyCompleteStep (r : Int) (v : Value) : Int :=
  match v with
  | .counter _ _ state_name fec _ _ _ =>
    if state_name = OLD_END_DEST then fec else r
  | _ => r

/-- The legacy completion count extracted from the values: the
first_entry_count of the last counter record at the END pseudostate, 0
when there is none. -/
def legacyCompleteCount (vs : List Value) : Int :=
  vs.foldl legacyCompleteStep 0

/-- The set of session ids that emitted a complete-exploration event. -/
def completeSessionsOf (vs : List Value) : Finset String :=
  (vs.filterMap (fun v =>
    match v with
    | .event event_type session_id _ _ _ _ =>
      if event_type = EVENT_TYPE_COMPLETE_EXPLORATION then some session_id
      else none
    | _ => none)).toFinset

/-- Does any value carry a maybe-leave event of session sid? -/
def hasMaybeLeave (vs : List Value) (sid : String) : Bool :=
  vs.any (Value.isMaybeLeaveOf sid)

/-- One step of the last-known-position accumulation for session sid: a
maybe-leave event of the session with a strictly later timestamp than the
running pair replaces it. -/
def retainedStep (sid : String) (p : Int × Option String) (v : Value) :
    Int × Option String :=
  match v with
  | .event event_type session_id state_name created_on _ _ =>
    if event_type = EVENT_TYPE_MAYBE_LEAVE_EXPLORATION ∧ session_id = sid
    then (if p.1 < created_on then (created_on, state_name) else p)
    else p
  | _ => p

/-- The (timestamp, state name) pair the reduce step retains for session
sid as its last known maybe-leave position, starting from the defaultdict
default (0, ''). -/
def retainedLeaveOf (vs : List Value) (sid : String) : Int × Option String :=
  vs.foldl (retainedStep sid) (0, some "")

/-- The accumulator state after the reduce step's main loop over the
values. -/
def reduceFold (exploration : Exploration) (vs : List Value) : ReduceAcc :=
  vs.foldl (processValue exploration) (initAcc exploration)

/-- The session ids the abandonment loop charges to state k: sessions with
a recorded maybe-leave event, not completing, whose retained last known
position is k, in the order the loop visits them. -/
def abandoningSessionsAt (exploration : Exploration) (vs : List Value)
    (k : Option String) : List String :=
  ((reduceFold exploration vs).session_id_to_latest_leave_evt.keys.filter
      (fun session_id =>
        session_id ∉ (reduceFold exploration vs).new_models_end_sessions)).filter
    (fun session_id =>
      decide
        (((reduceFold exploration
            vs).session_id_to_latest_leave_evt.val session_id).2 = k))

/-- Structural invariant of the reduce accumulators: the maybe-leave dict
and the per-state session dict have duplicate-free key lists, and a state
absent from the session dict has the empty session set (the defaultdict
default). -/
def AccInv (acc : ReduceAcc) : Prop :=
  acc.session_id_to_latest_leave_evt.keys.Nodup ∧
  acc.state_session_ids.keys.Nodup ∧
  ∀ k, k ∉ acc.state_session_ids.keys → acc.state_session_ids.val k = ∅

/-- The created-on timestamp the job framework's cutoff test reads from a
map input entity. -/
def MapItem.created_on_of : MapItem → Int
  | .stateCounter _ created_on _ _ _ _ => created_on
  | .eventLog _ _ _ created_on _ _ => created_on

/-- The exploration id under which the map step keys an entity: parsed
from the id for a StateCounterModel, the exploration_id field for an
event-log entry. -/
def MapItem.exploration_id_of : MapItem → String
  | .stateCounter id _ _ _ _ _ => (parseCounterId id).1
  | .eventLog _ _ _ _ exploration_id _ => exploration_id

/-- The specific version-scope under which the map step keys an entity:
VERSION_NONE for a StateCounterModel, and the stringified version (or
VERSION_NONE for a null version) for an event-log entry. -/
def MapItem.version_scope_of : MapItem → String
  | .stateCounter _ _ _ _ _ _ => VERSION_NONE
  | .eventLog _ _ _ _ _ exploration_version =>
    match exploration_version with
    | none => VERSION_NONE
    | some n => toString n

/-! Concrete sample data used by the witness and counterexample
theorems. -/

/-- A sample two-state exploration with initial state Intro. -/
def sampleExploration : Exploration :=
  { states := ["Intro", "Middle"]
    init_state_name := "Intro"
    version := 3
    last_updated := 0 }

/-- An exploration-lookup environment in which every lookup resolves to
sampleExploration. -/
def sampleEnv : ExpEnv :=
  { get_exploration_by_id := fun _ => some sampleExploration
    get_exploration_by_id_version := fun _ _ => some sampleExploration
    get_version := fun _ _ => some sampleExploration }

/-- An exploration-lookup environment in which every lookup fails. -/
def emptyEnv : ExpEnv :=
  { get_exploration_by_id := fun _ => none
    get_exploration_by_id_version := fun _ _ => none
    get_version := fun _ _ => none }

/-- Sample reduce values for the C3 counterexample: session s completes at
time 1 and then emits a maybe-leave at state Intro at time 2, so its
retained maybe-leave has no later complete event, yet the reduce step does
not count it as abandoning. -/
def leaveAfterCompleteValues : List Value :=
  [Value.event EVENT_TYPE_COMPLETE_EXPLORATION "s" none 1 "e" "3",
   Value.event EVENT_TYPE_MAYBE_LEAVE_EXPLORATION "s" (some "Intro") 2 "e"
     "3"]

/-- Sample reduce values for the C1 witness: two start events, one
complete event, a legacy counter at the initial state (legacy start count
7) and a legacy counter at the END pseudostate (legacy completion count
4). -/
def c1SampleValues : List Value :=
  [Value.event EVENT_TYPE_START_EXPLORATION "s1" (some "Intro") 1 "e" "3",
   Value.event EVENT_TYPE_START_EXPLORATION "s2" (some "Intro") 2 "e" "3",
   Value.event EVENT_TYPE_COMPLETE_EXPLORATION "s1" none 3 "e" "3",
   Value.counter "e" "none" "Intro" 7 2 1 1,
   Value.counter "e" "none" "END" 4 0 0 0]

/-- Sample reduce values for the C2 witness: three state hits at Middle
from two distinct sessions, plus an unrelated start event. -/
def c2SampleValues : List Value :=
  [Value.event EVENT_TYPE_STATE_HIT "s1" (some "Middle") 1 "e" "3",
   Value.event EVENT_TYPE_STATE_HIT "s1" (some "Middle") 2 "e" "3",
   Value.event EVENT_TYPE_STATE_HIT "s2" (some "Middle") 3 "e" "3",
   Value.event EVENT_TYPE_START_EXPLORATION "s1" (some "Intro") 0 "e" "3"]

/-- Sample reduce values for the C3 witness: session s1 leaves last at
Middle (time 5, after an earlier leave at Intro) and never completes;
session s2 leaves at Middle but completes, so only s1 abandons. -/
def c3SampleValues : List Value :=
  [Value.event EVENT_TYPE_MAYBE_LEAVE_EXPLORATION "s1" (some "Middle") 5
     "e" "3",
   Value.event EVENT_TYPE_MAYBE_LEAVE_EXPLORATION "s1" (some "Intro") 3
     "e" "3",
   Value.event EVENT_TYPE_MAYBE_LEAVE_EXPLORATION "s2" (some "Middle") 4
     "e" "3",
   Value.event EVENT_TYPE_COMPLETE_EXPLORATION "s2" none 6 "e" "3"]

/-- A sample query-facade environment: exploration e1 has a canonical
all-versions snapshot with 3 starts and a live counter with 2 starts;
everything else is absent. -/
def sampleQueryEnv : QueryEnv :=
  { annotations_store := fun k =>
      if k = "e1:all" then
        some
          { num_starts := 3
            num_completions := 1
            state_hit_counts := DMap.empty ⟨0, 0, 0⟩
            last_updated := 100 }
      else none
    realtime_store := fun k =>
      if k = "rt:e1" then some { num_starts := 2, num_completions := 0 }
      else none
    active_realtime_layer_id := fun exploration_id => "rt" ++ ":" ++ exploration_id }

/-- Sample answer batches for the C10 witness: two batches for the same
state whose interaction ids differ; the first one wins. -/
def c10SampleAnswers : List (StateAnswersDict String) :=
  [{ exploration_id := "e"
     exploration_version := "all"
     state_name := "Intro"
     interaction_id := "TextInput"
     submitted_answer_list := ["a", "b"] },
   { exploration_id := "e"
     exploration_version := "all"
     state_name := "Intro"
     interaction_id := "OtherInteraction"
     submitted_answer_list := ["c"] }]

/-- A sample answer-summaries environment over string answers, with one
registered calculation per interaction id and a calculation that returns
the combined answer list's length. -/
def sampleAnswersEnv : AnswersJobEnv String Nat :=
  { answer_calculation_ids := fun interaction_id =>
      if interaction_id = "TextInput" then ["AnswerFrequencies"] else []
    calculate_from_state_answers_dict := fun _ d =>
      d.submitted_answer_list.length }

/-! Basic lemmas about the dict model. -/

@[simp]
theorem DMap.val_set {α β : Type} [DecidableEq α] (m : DMap α β) (a : α)
    (b : β) (x : α) : (m.set a b).val x = if x = a then b else m.val x := rfl

@[simp]
theorem DMap.val_empty {α β : Type} (d : β) (x : α) :
    (DMap.empty d : DMap α β).val x = d := rfl

@[simp]
theorem DMap.keys_empty {α β : Type} (d : β) :
    (DMap.empty d : DMap α β).keys = [] := rfl

theorem DMap.mem_keys_set {α β : Type} [DecidableEq α] (m : DMap α β)
    (a : α) (b : β) (x : α) :
    x ∈ (m.set a b).keys ↔ x ∈ m.keys ∨ x = a := by
  simp only [DMap.set]
  split
  · constructor
    · exact fun h => Or.inl h
    · rintro (h | rfl) <;> assumption
  · simp

theorem DMap.nodup_keys_set {α β : Type} [DecidableEq α] (m : DMap α β)
    (a : α) (b : β) (h : m.keys.Nodup) : (m.set a b).keys.Nodup := by
  simp only [DMap.set]
  split
  · exact h
  · rename_i ha
    simp [List.nodup_append, h, ha]

example : splitOnChar ':' "e:all" = ["e", "all"] := by decide

example : parseCounterId "e.Intro" = ("e", "Intro") := by decide

example :
    (StatisticsMRJobManager.reduce sampleEnv "e:all"
        [Value.event EVENT_TYPE_START_EXPLORATION "s1" (some "Intro") 5 "e"
          "3"]).map
      (fun m => m.num_starts) = some 1 := by decide

/-! Distinctness of the event-type constants. -/

theorem start_ne_complete :
    EVENT_TYPE_START_EXPLORATION ≠ EVENT_TYPE_COMPLETE_EXPLORATION := by
  decide

theorem start_ne_leave :
    EVENT_TYPE_START_EXPLORATION ≠ EVENT_TYPE_MAYBE_LEAVE_EXPLORATION := by
  decide

theorem start_ne_hit :
    EVENT_TYPE_START_EXPLORATION ≠ EVENT_TYPE_STATE_HIT := by decide

theorem complete_ne_leave :
    EVENT_TYPE_COMPLETE_EXPLORATION ≠ EVENT_TYPE_MAYBE_LEAVE_EXPLORATION := by
  decide

theorem complete_ne_hit :
    EVENT_TYPE_COMPLETE_EXPLORATION ≠ EVENT_TYPE_STATE_HIT := by decide

theorem leave_ne_hit :
    EVENT_TYPE_MAYBE_LEAVE_EXPLORATION ≠ EVENT_TYPE_STATE_HIT := by decide

/-! Lemmas about the initial accumulators. -/

theorem foldl_set_some_const_val {β : Type} (c : β) (l : List String) :
    ∀ (m : DMap (Option String) β), (∀ x, m.val x = c) →
      ∀ k, ((l.foldl (fun m state_name => m.set (some state_name) c)
        m).val k) = c := by
  induction l with
  | nil => intro m hm k; exact hm k
  | cons s t ih =>
    intro m hm k
    simp only [List.foldl_cons]
    refine ih _ (fun x => ?_) k
    rw [DMap.val_set]
    split
    · rfl
    · exact hm x

theorem foldl_set_some_nodup {β : Type} (c : β) (l : List String) :
    ∀ (m : DMap (Option String) β), m.keys.Nodup →
      ((l.foldl (fun m state_name => m.set (some state_name) c)
        m).keys).Nodup := by
  induction l with
  | nil => intro m hm; exact hm
  | cons s t ih =>
    intro m hm
    simp only [List.foldl_cons]
    exact ih _ (DMap.nodup_keys_set _ _ _ hm)

theorem initAcc_shc_val (e : Exploration) (k : Option String) :
    (initAcc e).state_hit_counts.val k = ⟨0, 0, 0⟩ := by
  have h := foldl_set_some_const_val (β := StateHitCount) ⟨0, 0, 0⟩ e.states
    (DMap.empty ⟨0, 0, 0⟩) (fun _ => rfl) k
  exact h

theorem initAcc_sessions_val (e : Exploration) (k : Option String) :
    (initAcc e).state_session_ids.val k = ∅ := by
  have h := foldl_set_some_const_val (β := Finset String) ∅ e.states
    (DMap.empty ∅) (fun _ => rfl) k
  exact h

theorem initAcc_inv (e : Exploration) : AccInv (initAcc e) := by
  refine ⟨List.nodup_nil, ?_, fun k _ => initAcc_sessions_val e k⟩
  have h := foldl_set_some_nodup (β := Finset String) ∅ e.states
    (DMap.empty ∅) List.nodup_nil
  exact h

/-! Per-field effect of one iteration of the reduce step's value loop. -/

theorem processValue_old_start (e : Exploration) (acc : ReduceAcc)
    (v : Value) :
    (processValue e acc v).old_models_start_count =
      legacyStartStep e.init_state_name acc.old_models_start_count v := by
  cases v with
  | counter eid ver st fec sec rac aac =>
    simp only [processValue, legacyStartStep]
    split_ifs <;> rfl
  | event et sid st t eid ver =>
    simp only [processValue, legacyStartStep]
    split_ifs <;> rfl

theorem processValue_old_complete (e : Exploration) (acc : ReduceAcc)
    (v : Value) :
    (processValue e acc v).old_models_complete_count =
      legacyCompleteStep acc.old_models_complete_count v := by
  cases v with
  | counter eid ver st fec sec rac aac =>
    simp only [processValue, legacyCompleteStep]
    split_ifs <;> rfl
  | event et sid st t eid ver =>
    simp only [processValue, legacyCompleteStep]
    split_ifs <;> rfl

theorem processValue_new_start (e : Exploration) (acc : ReduceAcc)
    (v : Value) :
    (processValue e acc v).new_models_start_count =
      acc.new_models_start_count + (if v.isStartEvent then 1 else 0) := by
  cases v with
  | counter eid ver st fec sec rac aac =>
    simp only [processValue]
    split_ifs <;> simp_all [Value.isStartEvent]
  | event et sid st t eid ver =>
    by_cases h1 : et = EVENT_TYPE_START_EXPLORATION
    · subst h1
      simp [processValue, Value.isStartEvent]
    · by_cases h2 : et = EVENT_TYPE_COMPLETE_EXPLORATION
      · subst h2
        simp [processValue, Value.isStartEvent, h1]
      · by_cases h3 : et = EVENT_TYPE_MAYBE_LEAVE_EXPLORATION
        · subst h3
          simp only [processValue]
          rw [if_neg h1, if_neg h2]
          simp only [eq_self_iff_true, if_true]
          split_ifs <;> simp_all [Value.isStartEvent]
        · by_cases h4 : et = EVENT_TYPE_STATE_HIT
          · subst h4
            simp [processValue, Value.isStartEvent, h1, h2, h3]
          · simp [processValue, Value.isStartEvent, h1, h2, h3, h4]

theorem processValue_new_complete (e : Exploration) (acc : ReduceAcc)
    (v : Value) :
    (processValue e acc v).new_models_complete_count =
      acc.new_models_complete_count +
        (if v.isCompleteEvent then 1 else 0) := by
  cases v with
  | counter eid ver st fec sec rac aac =>
    simp only [processValue]
    split_ifs <;> simp_all [Value.isCompleteEvent]
  | event et sid st t eid ver =>
    by_cases h1 : et = EVENT_TYPE_START_EXPLORATION
    · subst h1
      simp [processValue, Value.isCompleteEvent, start_ne_complete]
    · by_cases h2 : et = EVENT_TYPE_COMPLETE_EXPLORATION
      · subst h2
        simp [processValue, Value.isCompleteEvent, h1]
      · by_cases h3 : et = EVENT_TYPE_MAYBE_LEAVE_EXPLORATION
        · subst h3
          simp only [processValue]
          rw [if_neg h1, if_neg h2]
          simp only [eq_self_iff_true, if_true]
          split_ifs <;> simp_all [Value.isCompleteEvent]
        · by_cases h4 : et = EVENT_TYPE_STATE_HIT
          · subst h4
            simp [processValue, Value.isCompleteEvent, h1, h2, h3]
          · simp [processValue, Value.isCompleteEvent, h1, h2, h3, h4]

theorem processValue_end_sessions (e : Exploration) (acc : ReduceAcc)
    (v : Value) :
    (processValue e acc v).new_models_end_sessions =
      match v with
      | .event event_type session_id _ _ _ _ =>
        if event_type = EVENT_TYPE_COMPLETE_EXPLORATION then
          insert session_id acc.new_models_end_sessions
        else acc.new_models_end_sessions
      | .counter _ _ _ _ _ _ _ => acc.new_models_end_sessions := by
  cases v with
  | counter eid ver st fec sec rac aac =>
    simp only [processValue]
    split_ifs <;> rfl
  | event et sid st t eid ver =>
    by_cases h1 : et = EVENT_TYPE_START_EXPLORATION
    · subst h1
      simp [processValue, start_ne_complete]
    · by_cases h2 : et = EVENT_TYPE_COMPLETE_EXPLORATION
      · subst h2
        simp [processValue, h1]
      · by_cases h3 : et = EVENT_TYPE_MAYBE_LEAVE_EXPLORATION
        · subst h3
          simp only [processValue]
          rw [if_neg h1, if_neg h2]
          simp only [eq_self_iff_true, if_true]
          split_ifs <;> simp [h2]
        · by_cases h4 : et = EVENT_TYPE_STATE_HIT
          · subst h4
            simp [processValue, h1, h2, h3]
          · simp [processValue, h1, h2, h3, h4]

theorem processValue_leave_val (e : Exploration) (acc : ReduceAcc)
    (v : Value) (sid : String) :
    (processValue e acc v).session_id_to_latest_leave_evt.val sid =
      retainedStep sid (acc.session_id_to_latest_leave_evt.val sid) v := by
  cases v with
  | counter eid ver st fec sec rac aac =>
    simp only [processValue, retainedStep]
    split_ifs <;> rfl
  | event et sid' st t eid ver =>
    by_cases h1 : et = EVENT_TYPE_START_EXPLORATION
    · subst h1
      simp [processValue, retainedStep, start_ne_leave]
    · by_cases h2 : et = EVENT_TYPE_COMPLETE_EXPLORATION
      · subst h2
        simp [processValue, retainedStep, complete_ne_leave, h1]
      · by_cases h3 : et = EVENT_TYPE_MAYBE_LEAVE_EXPLORATION
        · subst h3
          simp only [processValue, retainedStep]
          rw [if_neg h1, if_neg h2]
          simp only [eq_self_iff_true, if_true, true_and]
          by_cases h5 : sid' = sid
          · subst h5
            simp only [eq_self_iff_true, if_true, DMap.val_set]
            split_ifs <;> simp [DMap.val_set]
          · have h5' : ¬sid = sid' := fun h => h5 h.symm
            simp only [DMap.val_set, if_neg h5, if_neg h5']
            split_ifs <;> simp [DMap.val_set, h5']
        · by_cases h4 : et = EVENT_TYPE_STATE_HIT
          · subst h4
            simp [processValue, retainedStep, leave_ne_hit, h1, h2, h3]
          · simp [processValue, retainedStep, h1, h2, h3, h4]

theorem processValue_leave_mem (e : Exploration) (acc : ReduceAcc)
    (v : Value) (sid : String) :
    (sid ∈ (processValue e acc v).session_id_to_latest_leave_evt.keys ↔
      sid ∈ acc.session_id_to_latest_leave_evt.keys ∨
        Value.isMaybeLeaveOf sid v = true) := by
  cases v with
  | counter eid ver st fec sec rac aac =>
    simp only [processValue]
    split_ifs <;> simp [Value.isMaybeLeaveOf]
  | event et sid' st t eid ver =>
    by_cases h1 : et = EVENT_TYPE_START_EXPLORATION
    · subst h1
      simp [processValue, Value.isMaybeLeaveOf, start_ne_leave]
    · by_cases h2 : et = EVENT_TYPE_COMPLETE_EXPLORATION
      · subst h2
        simp [processValue, Value.isMaybeLeaveOf, complete_ne_leave, h1]
      · by_cases h3 : et = EVENT_TYPE_MAYBE_LEAVE_EXPLORATION
        · subst h3
          simp only [processValue]
          rw [if_neg h1, if_neg h2]
          simp only [eq_self_iff_true, if_true]
          have hR : Value.isMaybeLeaveOf sid
              (Value.event EVENT_TYPE_MAYBE_LEAVE_EXPLORATION sid' st t eid
                ver) = true ↔ sid' = sid := by
            simp [Value.isMaybeLeaveOf]
          rw [hR]
          split_ifs with hc
          · simp only [DMap.mem_keys_set]
            constructor
            · rintro ((h | h) | h)
              · exact Or.inl h
              · exact Or.inr h.symm
              · exact Or.inr h.symm
            · rintro (h | h)
              · exact Or.inl (Or.inl h)
              · exact Or.inr h.symm
          · simp only [DMap.mem_keys_set]
            constructor
            · rintro (h | h)
              · exact Or.inl h
              · exact Or.inr h.symm
            · rintro (h | h)
              · exact Or.inl h
              · exact Or.inr h.symm
        · by_cases h4 : et = EVENT_TYPE_STATE_HIT
          · subst h4
            simp [processValue, Value.isMaybeLeaveOf, leave_ne_hit, h1, h2,
              h3]
          · simp [processValue, Value.isMaybeLeaveOf, h1, h2, h3, h4]

theorem processValue_shc_event_total (e : Exploration) (acc : ReduceAcc)
    (et sid : String) (st : Option String) (t : Int) (eid ver : String)
    (k : Option String) :
    ((processValue e acc
        (Value.event et sid st t eid ver)).state_hit_counts.val
          k).total_entry_count =
      (acc.state_hit_counts.val k).total_entry_count +
        (if Value.isStateHitAt k (Value.event et sid st t eid ver) then 1
         else 0) := by
  by_cases h1 : et = EVENT_TYPE_START_EXPLORATION
  · subst h1
    simp [processValue, Value.isStateHitAt, start_ne_hit]
  · by_cases h2 : et = EVENT_TYPE_COMPLETE_EXPLORATION
    · subst h2
      simp [processValue, Value.isStateHitAt, complete_ne_hit, h1]
    · by_cases h3 : et = EVENT_TYPE_MAYBE_LEAVE_EXPLORATION
      · subst h3
        simp only [processValue]
        rw [if_neg h1, if_neg h2]
        simp only [eq_self_iff_true, if_true]
        split_ifs <;> simp_all [Value.isStateHitAt, leave_ne_hit]
      · by_cases h4 : et = EVENT_TYPE_STATE_HIT
        · subst h4
          simp only [processValue]
          rw [if_neg h1, if_neg h2, if_neg h3]
          simp only [eq_self_iff_true, if_true]
          by_cases h5 : k = st
          · subst h5
            simp [Value.isStateHitAt, DMap.val_set]
          · have h5' : ¬st = k := fun h => h5 h.symm
            simp [Value.isStateHitAt, DMap.val_set, h5, h5']
        · simp [processValue, Value.isStateHitAt, h1, h2, h3, h4]

theorem processValue_shc_event_first (e : Exploration) (acc : ReduceAcc)
    (et sid : String) (st : Option String) (t : Int) (eid ver : String)
    (k : Option String) :
    ((processValue e acc
        (Value.event et sid st t eid ver)).state_hit_counts.val
          k).first_entry_count =
      (acc.state_hit_counts.val k).first_entry_count := by
  by_cases h1 : et = EVENT_TYPE_START_EXPLORATION
  · subst h1
    simp [processValue]
  · by_cases h2 : et = EVENT_TYPE_COMPLETE_EXPLORATION
    · subst h2
      simp [processValue, h1]
    · by_cases h3 : et = EVENT_TYPE_MAYBE_LEAVE_EXPLORATION
      · subst h3
        simp only [processValue]
        rw [if_neg h1, if_neg h2]
        simp only [eq_self_iff_true, if_true]
        split_ifs <;> rfl
      · by_cases h4 : et = EVENT_TYPE_STATE_HIT
        · subst h4
          simp only [processValue]
          rw [if_neg h1, if_neg h2, if_neg h3]
          simp only [eq_self_iff_true, if_true]
          by_cases h5 : k = st
          · subst h5
            simp [DMap.val_set]
          · simp [DMap.val_set, h5]
        · simp [processValue, h1, h2, h3, h4]

theorem processValue_shc_event_no_answer (e : Exploration) (acc : ReduceAcc)
    (et sid : String) (st : Option String) (t : Int) (eid ver : String)
    (k : Option String) :
    ((processValue e acc
        (Value.event et sid st t eid ver)).state_hit_counts.val
          k).no_answer_count =
      (acc.state_hit_counts.val k).no_answer_count := by
  by_cases h1 : et = EVENT_TYPE_START_EXPLORATION
  · subst h1
    simp [processValue]
  · by_cases h2 : et = EVENT_TYPE_COMPLETE_EXPLORATION
    · subst h2
      simp [processValue, h1]
    · by_cases h3 : et = EVENT_TYPE_MAYBE_LEAVE_EXPLORATION
      · subst h3
        simp only [processValue]
        rw [if_neg h1, if_neg h2]
        simp only [eq_self_iff_true, if_true]
        split_ifs <;> rfl
      · by_cases h4 : et = EVENT_TYPE_STATE_HIT
        · subst h4
          simp only [processValue]
          rw [if_neg h1, if_neg h2, if_neg h3]
          simp only [eq_self_iff_true, if_true]
          by_cases h5 : k = st
          · subst h5
            simp [DMap.val_set]
          · simp [DMap.val_set, h5]
        · simp [processValue, h1, h2, h3, h4]

theorem processValue_sessions_val (e : Exploration) (acc : ReduceAcc)
    (et sid : String) (st : Option String) (t : Int) (eid ver : String)
    (k : Option String) :
    (processValue e acc
        (Value.event et sid st t eid ver)).state_session_ids.val k =
      if Value.isStateHitAt k (Value.event et sid st t eid ver) then
        insert sid (acc.state_session_ids.val k)
      else acc.state_session_ids.val k := by
  by_cases h1 : et = EVENT_TYPE_START_EXPLORATION
  · subst h1
    simp [processValue, Value.isStateHitAt, start_ne_hit]
  · by_cases h2 : et = EVENT_TYPE_COMPLETE_EXPLORATION
    · subst h2
      simp [processValue, Value.isStateHitAt, complete_ne_hit, h1]
    · by_cases h3 : et = EVENT_TYPE_MAYBE_LEAVE_EXPLORATION
      · subst h3
        simp only [processValue]
        rw [if_neg h1, if_neg h2]
        simp only [eq_self_iff_true, if_true]
        split_ifs <;> simp_all [Value.isStateHitAt, leave_ne_hit]
      · by_cases h4 : et = EVENT_TYPE_STATE_HIT
        · subst h4
          simp only [processValue]
          rw [if_neg h1, if_neg h2, if_neg h3]
          simp only [eq_self_iff_true, if_true]
          by_cases h5 : k = st
          · subst h5
            simp [Value.isStateHitAt, DMap.val_set]
          · have h5' : ¬st = k := fun h => h5 h.symm
            simp [Value.isStateHitAt, DMap.val_set, h5, h5']
        · simp [processValue, Value.isStateHitAt, h1, h2, h3, h4]

theorem processValue_inv (e : Exploration) (acc : ReduceAcc) (v : Value)
    (h : AccInv acc) : AccInv (processValue e acc v) := by
  obtain ⟨hleave, hnodup, hwf⟩ := h
  cases v with
  | counter eid ver st fec sec rac aac =>
    simp only [processValue]
    split_ifs <;> exact ⟨hleave, hnodup, hwf⟩
  | event et sid st t eid ver =>
    by_cases h1 : et = EVENT_TYPE_START_EXPLORATION
    · subst h1
      simp only [processValue, eq_self_iff_true, if_true]
      exact ⟨hleave, hnodup, hwf⟩
    · by_cases h2 : et = EVENT_TYPE_COMPLETE_EXPLORATION
      · subst h2
        simp only [processValue, eq_self_iff_true, if_true]
        rw [if_neg h1]
        exact ⟨hleave, hnodup, hwf⟩
      · by_cases h3 : et = EVENT_TYPE_MAYBE_LEAVE_EXPLORATION
        · subst h3
          simp only [processValue]
          rw [if_neg h1, if_neg h2]
          simp only [eq_self_iff_true, if_true]
          split_ifs
          · exact ⟨DMap.nodup_keys_set _ _ _
              (DMap.nodup_keys_set _ _ _ hleave), hnodup, hwf⟩
          · exact ⟨DMap.nodup_keys_set _ _ _ hleave, hnodup, hwf⟩
        · by_cases h4 : et = EVENT_TYPE_STATE_HIT
          · subst h4
            simp only [processValue]
            rw [if_neg h1, if_neg h2, if_neg h3]
            simp only [eq_self_iff_true, if_true]
            refine ⟨hleave, DMap.nodup_keys_set _ _ _ hnodup, ?_⟩
            intro k hk
            rw [DMap.mem_keys_set] at hk
            push_neg at hk
            rw [DMap.val_set, if_neg hk.2]
            exact hwf k hk.1
          · simp only [processValue]
            rw [if_neg h1, if_neg h2, if_neg h3, if_neg h4]
            exact ⟨hleave, hnodup, hwf⟩

/-! Bridges between the Bool event predicates and their Prop forms. -/

theorem isStateHitAt_event (k : Option String) (et sid : String)
    (st : Option String) (t : Int) (eid ver : String) :
    (Value.isStateHitAt k (Value.event et sid st t eid ver) = true ↔
      (et = EVENT_TYPE_STATE_HIT ∧ st = k)) := by
  simp [Value.isStateHitAt]

/-! Unfolding lemmas for the specification-side counters on a cons cell. -/

theorem numStartEvents_cons (v : Value) (t : List Value) :
    numStartEvents (v :: t) =
      (if v.isStartEvent then 1 else 0) + numStartEvents t := by
  simp only [numStartEvents, List.filter_cons]
  split_ifs
  · simp only [List.length_cons]
    push_cast
    ring
  · ring

theorem numCompleteEvents_cons (v : Value) (t : List Value) :
    numCompleteEvents (v :: t) =
      (if v.isCompleteEvent then 1 else 0) + numCompleteEvents t := by
  simp only [numCompleteEvents, List.filter_cons]
  split_ifs
  · simp only [List.length_cons]
    push_cast
    ring
  · ring

theorem numStateHits_cons (v : Value) (t : List Value) (k : Option String) :
    numStateHits (v :: t) k =
      (if Value.isStateHitAt k v then 1 else 0) + numStateHits t k := by
  simp only [numStateHits, List.filter_cons]
  split_ifs
  · simp only [List.length_cons]
    push_cast
    ring
  · ring

theorem distinctHitSessions_cons (v : Value) (t : List Value)
    (k : Option String) :
    distinctHitSessions (v :: t) k =
      match v with
      | .event event_type session_id state_name _ _ _ =>
        if event_type = EVENT_TYPE_STATE_HIT ∧ state_name = k then
          insert session_id (distinctHitSessions t k)
        else distinctHitSessions t k
      | .counter _ _ _ _ _ _ _ => distinctHitSessions t k := by
  cases v with
  | counter eid ver st fec sec rac aac =>
    simp [distinctHitSessions, List.filterMap_cons]
  | event et sid st tm eid ver =>
    simp only [distinctHitSessions, List.filterMap_cons]
    split_ifs with h
    · simp
    · simp

theorem completeSessionsOf_cons (v : Value) (t : List Value) :
    completeSessionsOf (v :: t) =
      match v with
      | .event event_type session_id _ _ _ _ =>
        if event_type = EVENT_TYPE_COMPLETE_EXPLORATION then
          insert session_id (completeSessionsOf t)
        else completeSessionsOf t
      | .counter _ _ _ _ _ _ _ => completeSessionsOf t := by
  cases v with
  | counter eid ver st fec sec rac aac =>
    simp [completeSessionsOf, List.filterMap_cons]
  | event et sid st tm eid ver =>
    simp only [completeSessionsOf, List.filterMap_cons]
    split_ifs with h
    · simp
    · simp

theorem hasMaybeLeave_cons (v : Value) (t : List Value) (sid : String) :
    hasMaybeLeave (v :: t) sid =
      (Value.isMaybeLeaveOf sid v || hasMaybeLeave t sid) := by
  simp [hasMaybeLeave]

/-! Effect of the whole value loop on each accumulator. -/

theorem foldl_processValue_old_start (e : Exploration) (vs : List Value) :
    ∀ acc : ReduceAcc,
      (vs.foldl (processValue e) acc).old_models_start_count =
        vs.foldl (legacyStartStep e.init_state_name)
          acc.old_models_start_count := by
  induction vs with
  | nil => intro acc; rfl
  | cons v t ih =>
    intro acc
    simp only [List.foldl_cons]
    rw [ih, processValue_old_start]

theorem reduceFold_old_start (e : Exploration) (vs : List Value) :
    (reduceFold e vs).old_models_start_count =
      legacyStartCount e.init_state_name vs := by
  have h := foldl_processValue_old_start e vs (initAcc e)
  exact h

theorem foldl_processValue_old_complete (e : Exploration) (vs : List Value) :
    ∀ acc : ReduceAcc,
      (vs.foldl (processValue e) acc).old_models_complete_count =
        vs.foldl legacyCompleteStep acc.old_models_complete_count := by
  induction vs with
  | nil => intro acc; rfl
  | cons v t ih =>
    intro acc
    simp only [List.foldl_cons]
    rw [ih, processValue_old_complete]

theorem reduceFold_old_complete (e : Exploration) (vs : List Value) :
    (reduceFold e vs).old_models_complete_count =
      legacyCompleteCount vs := by
  have h := foldl_processValue_old_complete e vs (initAcc e)
  exact h

theorem foldl_processValue_new_start (e : Exploration) (vs : List Value) :
    ∀ acc : ReduceAcc,
      (vs.foldl (processValue e) acc).new_models_start_count =
        acc.new_models_start_count + numStartEvents vs := by
  induction vs with
  | nil => intro acc; simp [numStartEvents]
  | cons v t ih =>
    intro acc
    simp only [List.foldl_cons]
    rw [ih, processValue_new_start, numStartEvents_cons]
    ring

theorem reduceFold_new_start (e : Exploration) (vs : List Value) :
    (reduceFold e vs).new_models_start_count = numStartEvents vs := by
  have h := foldl_processValue_new_start e vs (initAcc e)
  rw [show (initAcc e).new_models_start_count = 0 from rfl, zero_add] at h
  exact h

theorem foldl_processValue_new_complete (e : Exploration) (vs : List Value) :
    ∀ acc : ReduceAcc,
      (vs.foldl (processValue e) acc).new_models_complete_count =
        acc.new_models_complete_count + numCompleteEvents vs := by
  induction vs with
  | nil => intro acc; simp [numCompleteEvents]
  | cons v t ih =>
    intro acc
    simp only [List.foldl_cons]
    rw [ih, processValue_new_complete, numCompleteEvents_cons]
    ring

theorem reduceFold_new_complete (e : Exploration) (vs : List Value) :
    (reduceFold e vs).new_models_complete_count = numCompleteEvents vs := by
  have h := foldl_processValue_new_complete e vs (initAcc e)
  rw [show (initAcc e).new_models_complete_count = 0 from rfl, zero_add] at h
  exact h

theorem foldl_processValue_ends (e : Exploration) (vs : List Value) :
    ∀ acc : ReduceAcc,
      (vs.foldl (processValue e) acc).new_models_end_sessions =
        acc.new_models_end_sessions ∪ completeSessionsOf vs := by
  induction vs with
  | nil => intro acc; simp [completeSessionsOf]
  | cons v t ih =>
    intro acc
    simp only [List.foldl_cons]
    rw [ih, processValue_end_sessions, completeSessionsOf_cons]
    cases v with
    | counter eid ver st fec sec rac aac => rfl
    | event et sid st tm eid ver =>
      by_cases h : et = EVENT_TYPE_COMPLETE_EXPLORATION
      · simp only [if_pos h]
        rw [Finset.insert_union, Finset.union_insert]
      · simp only [if_neg h]

theorem reduceFold_ends (e : Exploration) (vs : List Value) :
    (reduceFold e vs).new_models_end_sessions = completeSessionsOf vs := by
  have h := foldl_processValue_ends e vs (initAcc e)
  simpa using h

theorem foldl_processValue_leave_val (e : Exploration) (sid : String)
    (vs : List Value) :
    ∀ acc : ReduceAcc,
      (vs.foldl (processValue e) acc).session_id_to_latest_leave_evt.val
          sid =
        vs.foldl (retainedStep sid)
          (acc.session_id_to_latest_leave_evt.val sid) := by
  induction vs with
  | nil => intro acc; rfl
  | cons v t ih =>
    intro acc
    simp only [List.foldl_cons]
    rw [ih, processValue_leave_val]

theorem reduceFold_leave_val (e : Exploration) (vs : List Value)
    (sid : String) :
    (reduceFold e vs).session_id_to_latest_leave_evt.val sid =
      retainedLeaveOf vs sid := by
  have h := foldl_processValue_leave_val e sid vs (initAcc e)
  exact h

theorem foldl_processValue_leave_mem (e : Exploration) (sid : String)
    (vs : List Value) :
    ∀ acc : ReduceAcc,
      (sid ∈
          (vs.foldl (processValue e)
            acc).session_id_to_latest_leave_evt.keys ↔
        sid ∈ acc.session_id_to_latest_leave_evt.keys ∨
          hasMaybeLeave vs sid = true) := by
  induction vs with
  | nil => intro acc; simp [hasMaybeLeave]
  | cons v t ih =>
    intro acc
    simp only [List.foldl_cons]
    rw [ih, processValue_leave_mem, hasMaybeLeave_cons]
    simp [or_assoc]

theorem reduceFold_leave_mem (e : Exploration) (vs : List Value)
    (sid : String) :
    (sid ∈ (reduceFold e vs).session_id_to_latest_leave_evt.keys ↔
      hasMaybeLeave vs sid = true) := by
  have h := foldl_processValue_leave_mem e sid vs (initAcc e)
  simpa [initAcc, DMap.empty] using h

theorem foldl_processValue_inv (e : Exploration) (vs : List Value) :
    ∀ acc : ReduceAcc, AccInv acc →
      AccInv (vs.foldl (processValue e) acc) := by
  induction vs with
  | nil => exact fun acc h => h
  | cons v t ih =>
    intro acc h
    simp only [List.foldl_cons]
    exact ih _ (processValue_inv e acc v h)

theorem reduceFold_inv (e : Exploration) (vs : List Value) :
    AccInv (reduceFold e vs) :=
  foldl_processValue_inv e vs (initAcc e) (initAcc_inv e)

theorem foldl_processValue_shc_total (e : Exploration) (k : Option String)
    (vs : List Value) :
    ∀ acc : ReduceAcc, (∀ v ∈ vs, v.isCounterValue = false) →
      ((vs.foldl (processValue e) acc).state_hit_counts.val
          k).total_entry_count =
        (acc.state_hit_counts.val k).total_entry_count +
          numStateHits vs k := by
  induction vs with
  | nil => intro acc _; simp [numStateHits]
  | cons v t ih =>
    intro acc hnc
    simp only [List.foldl_cons]
    rw [ih _ (fun w hw => hnc w (List.mem_cons_of_mem v hw)),
      numStateHits_cons]
    cases v with
    | counter eid ver st fec sec rac aac =>
      have hv := hnc _ (List.mem_cons_self _ _)
      simp [Value.isCounterValue] at hv
    | event et sid st tm eid ver =>
      rw [processValue_shc_event_total]
      ring

theorem foldl_processValue_shc_first (e : Exploration) (k : Option String)
    (vs : List Value) :
    ∀ acc : ReduceAcc, (∀ v ∈ vs, v.isCounterValue = false) →
      ((vs.foldl (processValue e) acc).state_hit_counts.val
          k).first_entry_count =
        (acc.state_hit_counts.val k).first_entry_count := by
  induction vs with
  | nil => intro acc _; rfl
  | cons v t ih =>
    intro acc hnc
    simp only [List.foldl_cons]
    rw [ih _ (fun w hw => hnc w (List.mem_cons_of_mem v hw))]
    cases v with
    | counter eid ver st fec sec rac aac =>
      have hv := hnc _ (List.mem_cons_self _ _)
      simp [Value.isCounterValue] at hv
    | event et sid st tm eid ver =>
      rw [processValue_shc_event_first]

theorem foldl_processValue_shc_no_answer (e : Exploration)
    (k : Option String) (vs : List Value) :
    ∀ acc : ReduceAcc, (∀ v ∈ vs, v.isCounterValue = false) →
      ((vs.foldl (processValue e) acc).state_hit_counts.val
          k).no_answer_count =
        (acc.state_hit_counts.val k).no_answer_count := by
  induction vs with
  | nil => intro acc _; rfl
  | cons v t ih =>
    intro acc hnc
    simp only [List.foldl_cons]
    rw [ih _ (fun w hw => hnc w (List.mem_cons_of_mem v hw))]
    cases v with
    | counter eid ver st fec sec rac aac =>
      have hv := hnc _ (List.mem_cons_self _ _)
      simp [Value.isCounterValue] at hv
    | event et sid st tm eid ver =>
      rw [processValue_shc_event_no_answer]

theorem foldl_processValue_sessions_val (e : Exploration)
    (k : Option String) (vs : List Value) :
    ∀ acc : ReduceAcc, (∀ v ∈ vs, v.isCounterValue = false) →
      (vs.foldl (processValue e) acc).state_session_ids.val k =
        acc.state_session_ids.val k ∪ distinctHitSessions vs k := by
  induction vs with
  | nil => intro acc _; simp [distinctHitSessions]
  | cons v t ih =>
    intro acc hnc
    simp only [List.foldl_cons]
    rw [ih _ (fun w hw => hnc w (List.mem_cons_of_mem v hw)),
      distinctHitSessions_cons]
    cases v with
    | counter eid ver st fec sec rac aac =>
      have hv := hnc _ (List.mem_cons_self _ _)
      simp [Value.isCounterValue] at hv
    | event et sid st tm eid ver =>
      rw [processValue_sessions_val]
      by_cases h : et = EVENT_TYPE_STATE_HIT ∧ st = k
      · simp only [if_pos ((isStateHitAt_event k et sid st tm eid ver).mpr h),
          if_pos h]
        rw [Finset.insert_union, Finset.union_insert]
      · simp only [if_neg (fun hb =>
            h ((isStateHitAt_event k et sid st tm eid ver).mp hb)),
          if_neg h]

/-! The first-entry finalization loop. -/

theorem firstEntryLoop_val_not_mem
    (sess : DMap (Option String) (Finset String))
    (ks : List (Option String)) :
    ∀ (m : DMap (Option String) StateHitCount) (k : Option String),
      k ∉ ks →
      ((ks.foldl (fun shc state_name =>
        shc.set state_name
          { shc.val state_name with
            first_entry_count := (shc.val state_name).first_entry_count +
              ((sess.val state_name).card : Int) }) m).val k) = m.val k := by
  induction ks with
  | nil => intro m k _; rfl
  | cons a t ih =>
    intro m k hk
    simp only [List.foldl_cons]
    rw [ih _ _ (fun h => hk (List.mem_cons_of_mem a h))]
    rw [DMap.val_set,
      if_neg (fun h => hk (by rw [h]; exact List.mem_cons_self a t))]

theorem firstEntryLoop_val (sess : DMap (Option String) (Finset String))
    (ks : List (Option String)) :
    ∀ (m : DMap (Option String) StateHitCount) (k : Option String),
      ks.Nodup →
      ((ks.foldl (fun shc state_name =>
        shc.set state_name
          { shc.val state_name with
            first_entry_count := (shc.val state_name).first_entry_count +
              ((sess.val state_name).card : Int) }) m).val k) =
        if k ∈ ks then
          { m.val k with
            first_entry_count := (m.val k).first_entry_count +
              ((sess.val k).card : Int) }
        else m.val k := by
  induction ks with
  | nil => intro m k _; simp
  | cons a t ih =>
    intro m k hnd
    obtain ⟨ha, hnd2⟩ := List.nodup_cons.mp hnd
    simp only [List.foldl_cons]
    by_cases hk : k = a
    · subst hk
      rw [firstEntryLoop_val_not_mem sess t _ _ ha]
      simp [DMap.val_set]
    · rw [ih _ _ hnd2]
      simp only [DMap.val_set, if_neg hk]
      simp [List.mem_cons, hk]

theorem addFirstEntryCounts_val (acc : ReduceAcc) (k : Option String)
    (hnd : acc.state_session_ids.keys.Nodup)
    (hwf : ∀ x, x ∉ acc.state_session_ids.keys →
      acc.state_session_ids.val x = ∅) :
    (addFirstEntryCounts acc).val k =
      { acc.state_hit_counts.val k with
        first_entry_count := (acc.state_hit_counts.val k).first_entry_count +
          ((acc.state_session_ids.val k).card : Int) } := by
  unfold addFirstEntryCounts
  rw [firstEntryLoop_val _ _ _ _ hnd]
  split_ifs with h
  · rfl
  · rw [hwf k h]
    simp

/-! The abandonment finalization loop. -/

theorem noAnswerLoop_val (leave : DMap String (Int × Option String))
    (sids : List String) :
    ∀ (m : DMap (Option String) StateHitCount) (k : Option String),
      (((sids.foldl (fun m session_id =>
          m.set (leave.val session_id).2
            { m.val (leave.val session_id).2 with
              no_answer_count :=
                (m.val (leave.val session_id).2).no_answer_count + 1 })
          m).val k).no_answer_count =
        (m.val k).no_answer_count +
          ((sids.filter
            (fun sid => decide ((leave.val sid).2 = k))).length : Int)) ∧
      (((sids.foldl (fun m session_id =>
          m.set (leave.val session_id).2
            { m.val (leave.val session_id).2 with
              no_answer_count :=
                (m.val (leave.val session_id).2).no_answer_count + 1 })
          m).val k).total_entry_count = (m.val k).total_entry_count) ∧
      (((sids.foldl (fun m session_id =>
          m.set (leave.val session_id).2
            { m.val (leave.val session_id).2 with
              no_answer_count :=
                (m.val (leave.val session_id).2).no_answer_count + 1 })
          m).val k).first_entry_count = (m.val k).first_entry_count) := by
  induction sids with
  | nil =>
    intro m k
    refine ⟨?_, rfl, rfl⟩
    simp
  | cons sid t ih =>
    intro m k
    simp only [List.foldl_cons, List.filter_cons]
    obtain ⟨ih1, ih2, ih3⟩ := ih (m.set (leave.val sid).2
      { m.val (leave.val sid).2 with
        no_answer_count := (m.val (leave.val sid).2).no_answer_count + 1 }) k
    by_cases h : (leave.val sid).2 = k
    · have hk : k = (leave.val sid).2 := h.symm
      subst hk
      refine ⟨?_, ?_, ?_⟩
      · rw [ih1, DMap.val_set, if_pos rfl]
        simp only [decide_eq_true_eq, eq_self_iff_true, decide_True,
          if_true, List.length_cons]
        push_cast
        ring
      · rw [ih2, DMap.val_set, if_pos rfl]
      · rw [ih3, DMap.val_set, if_pos rfl]
    · have hk : ¬k = (leave.val sid).2 := fun hh => h hh.symm
      refine ⟨?_, ?_, ?_⟩
      · rw [ih1, DMap.val_set, if_neg hk, if_neg (by simpa using h)]
      · rw [ih2, DMap.val_set, if_neg hk]
      · rw [ih3, DMap.val_set, if_neg hk]

theorem addNoAnswerCounts_val (acc : ReduceAcc)
    (shc : DMap (Option String) StateHitCount) (k : Option String) :
    (((addNoAnswerCounts acc shc).val k).no_answer_count =
        (shc.val k).no_answer_count +
          (((acc.session_id_to_latest_leave_evt.keys.filter
              (fun session_id =>
                session_id ∉ acc.new_models_end_sessions)).filter
            (fun sid =>
              decide ((acc.session_id_to_latest_leave_evt.val sid).2 =
                k))).length : Int)) ∧
      (((addNoAnswerCounts acc shc).val k).total_entry_count =
        (shc.val k).total_entry_count) ∧
      (((addNoAnswerCounts acc shc).val k).first_entry_count =
        (shc.val k).first_entry_count) := by
  unfold addNoAnswerCounts
  exact noAnswerLoop_val acc.session_id_to_latest_leave_evt _ shc k

/-! The reduce step on a well-formed key and a resolvable exploration. -/

theorem reduce_eq_some (env : ExpEnv) (key exp_id version : String)
    (vs : List Value) (expl : Exploration)
    (hkey : splitOnChar ':' key = [exp_id, version])
    (hres : resolveExploration env exp_id version = some expl) :
    StatisticsMRJobManager.reduce env key vs =
      some
        { exp_id := exp_id
          version := version
          num_starts := (reduceFold expl vs).old_models_start_count +
            (reduceFold expl vs).new_models_start_count
          num_completions :=
            (reduceFold expl vs).old_models_complete_count +
              (reduceFold expl vs).new_models_complete_count
          state_hit_counts := addNoAnswerCounts (reduceFold expl vs)
            (addFirstEntryCounts (reduceFold expl vs)) } := by
  simp only [StatisticsMRJobManager.reduce, hkey, hres, reduceFold]

/-! The legacy contributions vanish without counter records. -/

theorem foldl_legacyStartStep_of_no_counter (isn : String)
    (vs : List Value) :
    (∀ v ∈ vs, v.isCounterValue = false) →
      ∀ r : Int, vs.foldl (legacyStartStep isn) r = r := by
  induction vs with
  | nil => intro _ r; rfl
  | cons v t ih =>
    intro h r
    simp only [List.foldl_cons]
    have hv : legacyStartStep isn r v = r := by
      cases v with
      | counter eid ver st fec sec rac aac =>
        have hc := h _ (List.mem_cons_self _ _)
        simp [Value.isCounterValue] at hc
      | event et sid st t eid ver => rfl
    rw [hv]
    exact ih (fun w hw => h w (List.mem_cons_of_mem v hw)) r

theorem foldl_legacyCompleteStep_of_no_counter (vs : List Value) :
    (∀ v ∈ vs, v.isCounterValue = false) →
      ∀ r : Int, vs.foldl legacyCompleteStep r = r := by
  induction vs with
  | nil => intro _ r; rfl
  | cons v t ih =>
    intro h r
    simp only [List.foldl_cons]
    have hv : legacyCompleteStep r v = r := by
      cases v with
      | counter eid ver st fec sec rac aac =>
        have hc := h _ (List.mem_cons_self _ _)
        simp [Value.isCounterValue] at hc
      | event et sid st t eid ver => rfl
    rw [hv]
    exact ih (fun w hw => h w (List.mem_cons_of_mem v hw)) r

theorem legacyStartCount_eq_zero (isn : String) (vs : List Value)
    (h : ∀ v ∈ vs, v.isCounterValue = false) :
    legacyStartCount isn vs = 0 :=
  foldl_legacyStartStep_of_no_counter isn vs h 0

theorem legacyCompleteCount_eq_zero (vs : List Value)
    (h : ∀ v ∈ vs, v.isCounterValue = false) :
    legacyCompleteCount vs = 0 :=
  foldl_legacyCompleteStep_of_no_counter vs h 0

/-! Wrapper lemmas about reduceFold starting from the initial
accumulators. -/

theorem reduceFold_shc_total (e : Exploration) (vs : List Value)
    (k : Option String) (hnc : ∀ v ∈ vs, v.isCounterValue = false) :
    ((reduceFold e vs).state_hit_counts.val k).total_entry_count =
      numStateHits vs k := by
  have h := foldl_processValue_shc_total e k vs (initAcc e) hnc
  rw [initAcc_shc_val] at h
  simpa using h

theorem reduceFold_shc_first (e : Exploration) (vs : List Value)
    (k : Option String) (hnc : ∀ v ∈ vs, v.isCounterValue = false) :
    ((reduceFold e vs).state_hit_counts.val k).first_entry_count = 0 := by
  have h := foldl_processValue_shc_first e k vs (initAcc e) hnc
  rw [initAcc_shc_val] at h
  simpa using h

theorem reduceFold_shc_no_answer (e : Exploration) (vs : List Value)
    (k : Option String) (hnc : ∀ v ∈ vs, v.isCounterValue = false) :
    ((reduceFold e vs).state_hit_counts.val k).no_answer_count = 0 := by
  have h := foldl_processValue_shc_no_answer e k vs (initAcc e) hnc
  rw [initAcc_shc_val] at h
  simpa using h

theorem reduceFold_sessions_val (e : Exploration) (vs : List Value)
    (k : Option String) (hnc : ∀ v ∈ vs, v.isCounterValue = false) :
    (reduceFold e vs).state_session_ids.val k = distinctHitSessions vs k := by
  have h := foldl_processValue_sessions_val e k vs (initAcc e) hnc
  rw [initAcc_sessions_val] at h
  simpa using h

/-! Claim C1. -/

/-- C1: for every reduce key whose exploration resolves, the written
snapshot has num_starts equal to the legacy start contribution plus the
number of event-origin start events, and num_completions equal to the
legacy completion contribution plus the number of event-origin complete
events; in particular, with no legacy counter records, the totals are
exactly the event counts. -/
theorem C1_reduce_start_completion_totals (env : ExpEnv)
    (key exp_id version : String) (vs : List Value) (expl : Exploration)
    (hkey : splitOnChar ':' key = [exp_id, version])
    (hres : resolveExploration env exp_id version = some expl) :
    ∃ m, StatisticsMRJobManager.reduce env key vs = some m ∧
      m.num_starts =
        legacyStartCount expl.init_state_name vs + numStartEvents vs ∧
      m.num_completions = legacyCompleteCount vs + numCompleteEvents vs ∧
      ((∀ v ∈ vs, v.isCounterValue = false) →
        m.num_starts = numStartEvents vs ∧
          m.num_completions = numCompleteEvents vs) := by
  refine ⟨_, reduce_eq_some env key exp_id version vs expl hkey hres,
    ?_, ?_, ?_⟩
  · simp only [reduceFold_old_start, reduceFold_new_start]
  · simp only [reduceFold_old_complete, reduceFold_new_complete]
  · intro hnc
    constructor
    · simp only [reduceFold_old_start, reduceFold_new_start,
        legacyStartCount_eq_zero expl.init_state_name vs hnc, zero_add]
    · simp only [reduceFold_old_complete, reduceFold_new_complete,
        legacyCompleteCount_eq_zero vs hnc, zero_add]

/-- Witness instantiating C1 at concrete values with a legacy start count
of 7, a legacy completion count of 4, two start events and one complete
event. -/
theorem C1_reduce_start_completion_totals_witness :
    ∃ m, StatisticsMRJobManager.reduce sampleEnv "e:all" c1SampleValues =
        some m ∧
      m.num_starts =
        legacyStartCount sampleExploration.init_state_name c1SampleValues +
          numStartEvents c1SampleValues ∧
      m.num_completions =
        legacyCompleteCount c1SampleValues +
          numCompleteEvents c1SampleValues ∧
      ((∀ v ∈ c1SampleValues, v.isCounterValue = false) →
        m.num_starts = numStartEvents c1SampleValues ∧
          m.num_completions = numCompleteEvents c1SampleValues) :=
  C1_reduce_start_completion_totals sampleEnv "e:all" "e" "all"
    c1SampleValues sampleExploration (by decide) rfl

/-! Claim C2. -/

/-- C2: with no legacy records, the written bucket for a state s has
total_entry_count equal to the number of state-hit events at s and
first_entry_count equal to the number of distinct sessions among those
hit events. -/
theorem C2_state_hit_bucket_counts (env : ExpEnv)
    (key exp_id version : String) (vs : List Value) (expl : Exploration)
    (s : String)
    (hkey : splitOnChar ':' key = [exp_id, version])
    (hres : resolveExploration env exp_id version = some expl)
    (hnc : ∀ v ∈ vs, v.isCounterValue = false) :
    ∃ m, StatisticsMRJobManager.reduce env key vs = some m ∧
      (m.state_hit_counts.val (some s)).total_entry_count =
        numStateHits vs (some s) ∧
      (m.state_hit_counts.val (some s)).first_entry_count =
        ((distinctHitSessions vs (some s)).card : Int) := by
  have hinv := reduceFold_inv expl vs
  have hA := addFirstEntryCounts_val (reduceFold expl vs) (some s)
    hinv.2.1 hinv.2.2
  have hN := addNoAnswerCounts_val (reduceFold expl vs)
    (addFirstEntryCounts (reduceFold expl vs)) (some s)
  refine ⟨_, reduce_eq_some env key exp_id version vs expl hkey hres,
    ?_, ?_⟩
  · show ((addNoAnswerCounts (reduceFold expl vs)
        (addFirstEntryCounts (reduceFold expl vs))).val
          (some s)).total_entry_count = _
    rw [hN.2.1, hA]
    show ((reduceFold expl vs).state_hit_counts.val
        (some s)).total_entry_count = _
    exact reduceFold_shc_total expl vs (some s) hnc
  · show ((addNoAnswerCounts (reduceFold expl vs)
        (addFirstEntryCounts (reduceFold expl vs))).val
          (some s)).first_entry_count = _
    rw [hN.2.2, hA]
    show ((reduceFold expl vs).state_hit_counts.val
        (some s)).first_entry_count +
        (((reduceFold expl vs).state_session_ids.val (some s)).card :
          Int) = _
    rw [reduceFold_shc_first expl vs (some s) hnc,
      reduceFold_sessions_val expl vs (some s) hnc, zero_add]

/-- Witness instantiating C2 at concrete values: three hits at Middle
from two distinct sessions. -/
theorem C2_state_hit_bucket_counts_witness :
    ∃ m, StatisticsMRJobManager.reduce sampleEnv "e:all" c2SampleValues =
        some m ∧
      (m.state_hit_counts.val (some "Middle")).total_entry_count =
        numStateHits c2SampleValues (some "Middle") ∧
      (m.state_hit_counts.val (some "Middle")).first_entry_count =
        ((distinctHitSessions c2SampleValues (some "Middle")).card :
          Int) :=
  C2_state_hit_bucket_counts sampleEnv "e:all" "e" "all" c2SampleValues
    sampleExploration "Middle" (by decide) rfl (by decide)

/-! Claim C7. -/

/-- C7: when exploration resolution fails for a reduce key (deleted
exploration or missing version, the caught EntityNotFoundError), the
reduce step returns none: no snapshot is written for that key and no
exception propagates.  The embedding is purely functional, so no other
state, and in particular no other reduce key, is affected. -/
theorem C7_resolution_failure_writes_nothing (env : ExpEnv)
    (key exp_id version : String) (vs : List Value)
    (hkey : splitOnChar ':' key = [exp_id, version])
    (hres : resolveExploration env exp_id version = none) :
    StatisticsMRJobManager.reduce env key vs = none := by
  simp only [StatisticsMRJobManager.reduce, hkey, hres]

/-- Witness instantiating C7: an environment in which every exploration
lookup fails. -/
theorem C7_resolution_failure_writes_nothing_witness :
    StatisticsMRJobManager.reduce emptyEnv "e:all" c1SampleValues = none :=
  C7_resolution_failure_writes_nothing emptyEnv "e:all" "e" "all"
    c1SampleValues (by decide) rfl

/-! Claim C3: characterization of the retained maybe-leave pair and the
abandonment attribution. -/

theorem hasMaybeLeave_of_mem (vs : List Value) (sid : String)
    (st2 : Option String) (t2 : Int) (eid2 ver2 : String)
    (h : Value.event EVENT_TYPE_MAYBE_LEAVE_EXPLORATION sid st2 t2 eid2
      ver2 ∈ vs) :
    hasMaybeLeave vs sid = true := by
  simp only [hasMaybeLeave, List.any_eq_true]
  exact ⟨_, h, by simp [Value.isMaybeLeaveOf]⟩

theorem foldl_retainedStep_stay (sid : String) (t : Int) (S : Option String) :
    ∀ vs : List Value,
      (∀ st2 t2 eid2 ver2,
        Value.event EVENT_TYPE_MAYBE_LEAVE_EXPLORATION sid st2 t2 eid2
          ver2 ∈ vs → t2 ≤ t) →
      vs.foldl (retainedStep sid) (t, S) = (t, S) := by
  intro vs
  induction vs with
  | nil => intro _; rfl
  | cons v tl ih =>
    intro hle
    simp only [List.foldl_cons]
    have hv : retainedStep sid (t, S) v = (t, S) := by
      cases v with
      | counter eid ver st fec sec rac aac => rfl
      | event et sid2 st2 t2 eid2 ver2 =>
        simp only [retainedStep]
        split_ifs with hc hlt
        · exfalso
          obtain ⟨he, hs⟩ := hc
          subst he
          subst hs
          have h2 := hle st2 t2 eid2 ver2 (List.mem_cons_self _ _)
          simp only at hlt
          omega
        · rfl
        · rfl
    rw [hv]
    exact ih (fun st2 t2 eid2 ver2 hm =>
      hle st2 t2 eid2 ver2 (List.mem_cons_of_mem v hm))

theorem foldl_retainedStep_latest (sid : String) (t : Int)
    (S : Option String) :
    ∀ vs : List Value,
      (∀ st2 t2 eid2 ver2,
        Value.event EVENT_TYPE_MAYBE_LEAVE_EXPLORATION sid st2 t2 eid2
          ver2 ∈ vs → t2 ≤ t) →
      (∀ st2 t2 eid2 ver2,
        Value.event EVENT_TYPE_MAYBE_LEAVE_EXPLORATION sid st2 t2 eid2
          ver2 ∈ vs → t2 = t → st2 = S) →
      (∃ eid2 ver2,
        Value.event EVENT_TYPE_MAYBE_LEAVE_EXPLORATION sid S t eid2
          ver2 ∈ vs) →
      ∀ p : Int × Option String, (p.1 < t ∨ p = (t, S)) →
        vs.foldl (retainedStep sid) p = (t, S) := by
  intro vs
  induction vs with
  | nil =>
    intro _ _ hmem p _
    obtain ⟨eid2, ver2, hm⟩ := hmem
    exact absurd hm (List.not_mem_nil _)
  | cons v tl ih =>
    intro hle htie hmem p hp
    simp only [List.foldl_cons]
    obtain ⟨eid2, ver2, hm⟩ := hmem
    rcases List.mem_cons.mp hm with hv | hm2
    · subst hv
      rcases hp with hlt | hpe
      · have hstep : retainedStep sid p
            (Value.event EVENT_TYPE_MAYBE_LEAVE_EXPLORATION sid S t eid2
              ver2) = (t, S) := by
          simp only [retainedStep]
          rw [if_pos ⟨trivial, trivial⟩, if_pos hlt]
        rw [hstep]
        exact foldl_retainedStep_stay sid t S tl
          (fun st2 t2 eid3 ver3 hm3 =>
            hle st2 t2 eid3 ver3 (List.mem_cons_of_mem _ hm3))
      · subst hpe
        have hstep : retainedStep sid (t, S)
            (Value.event EVENT_TYPE_MAYBE_LEAVE_EXPLORATION sid S t eid2
              ver2) = (t, S) := by
          simp only [retainedStep]
          rw [if_pos ⟨trivial, trivial⟩, if_neg (lt_irrefl t)]
        rw [hstep]
        exact foldl_retainedStep_stay sid t S tl
          (fun st2 t2 eid3 ver3 hm3 =>
            hle st2 t2 eid3 ver3 (List.mem_cons_of_mem _ hm3))
    · have hinv : (retainedStep sid p v).1 < t ∨
          retainedStep sid p v = (t, S) := by
        cases v with
        | counter eid ver st fec sec rac aac => exact hp
        | event et sid2 st2 t2 eid3 ver3 =>
          simp only [retainedStep]
          split_ifs with hc hlt2
          · obtain ⟨he, hs⟩ := hc
            subst he
            subst hs
            have ht2 := hle st2 t2 eid3 ver3 (List.mem_cons_self _ _)
            rcases lt_or_eq_of_le ht2 with h2 | h2
            · exact Or.inl h2
            · refine Or.inr ?_
              have hst := htie st2 t2 eid3 ver3 (List.mem_cons_self _ _) h2
              rw [h2, hst]
          · exact hp
          · exact hp
      exact ih
        (fun st2 t2 eid3 ver3 hm3 =>
          hle st2 t2 eid3 ver3 (List.mem_cons_of_mem v hm3))
        (fun st2 t2 eid3 ver3 hm3 h2 =>
          htie st2 t2 eid3 ver3 (List.mem_cons_of_mem v hm3) h2)
        ⟨eid2, ver2, hm2⟩ _ hinv

theorem mem_abandoningSessionsAt (e : Exploration) (vs : List Value)
    (k : Option String) (sid : String) :
    sid ∈ abandoningSessionsAt e vs k ↔
      hasMaybeLeave vs sid = true ∧ sid ∉ completeSessionsOf vs ∧
        (retainedLeaveOf vs sid).2 = k := by
  unfold abandoningSessionsAt
  simp only [List.mem_filter, decide_eq_true_eq]
  rw [reduceFold_leave_mem, reduceFold_ends, reduceFold_leave_val]
  tauto

theorem nodup_abandoningSessionsAt (e : Exploration) (vs : List Value)
    (k : Option String) : (abandoningSessionsAt e vs k).Nodup := by
  unfold abandoningSessionsAt
  exact ((reduceFold_inv e vs).1.filter _).filter _

/-- C3 (amended): with no legacy records, (a) the written no_answer_count
of a state k is exactly the number of abandoning sessions whose retained
maybe-leave position is k, where the abandoning sessions are those with a
maybe-leave event and no complete event in the whole reduce input,
regardless of timestamp order; (b) a session retained at k with no
complete event at all is counted exactly once; (c) a session with any
complete event — even one earlier than its retained maybe-leave — is
counted zero times; and (d) among a session's maybe-leave events the one
with the (strictly) latest positive timestamp is the one retained. -/
theorem C3_abandonment_attribution (env : ExpEnv)
    (key exp_id version : String) (vs : List Value) (expl : Exploration)
    (S : Option String) (s : String) (t : Int)
    (hkey : splitOnChar ':' key = [exp_id, version])
    (hres : resolveExploration env exp_id version = some expl)
    (hnc : ∀ v ∈ vs, v.isCounterValue = false) :
    ∃ m, StatisticsMRJobManager.reduce env key vs = some m ∧
      (m.state_hit_counts.val S).no_answer_count =
        ((abandoningSessionsAt expl vs S).length : Int) ∧
      (hasMaybeLeave vs s = true → retainedLeaveOf vs s = (t, S) →
        s ∉ completeSessionsOf vs →
        (abandoningSessionsAt expl vs S).count s = 1) ∧
      (s ∈ completeSessionsOf vs →
        (abandoningSessionsAt expl vs S).count s = 0) ∧
      ((∃ eid2 ver2,
          Value.event EVENT_TYPE_MAYBE_LEAVE_EXPLORATION s S t eid2
            ver2 ∈ vs) →
        (∀ st2 t2 eid2 ver2,
          Value.event EVENT_TYPE_MAYBE_LEAVE_EXPLORATION s st2 t2 eid2
            ver2 ∈ vs → t2 ≤ t) →
        (∀ st2 t2 eid2 ver2,
          Value.event EVENT_TYPE_MAYBE_LEAVE_EXPLORATION s st2 t2 eid2
            ver2 ∈ vs → t2 = t → st2 = S) →
        0 < t → retainedLeaveOf vs s = (t, S)) := by
  have hinv := reduceFold_inv expl vs
  have hA := addFirstEntryCounts_val (reduceFold expl vs) S
    hinv.2.1 hinv.2.2
  have hN := addNoAnswerCounts_val (reduceFold expl vs)
    (addFirstEntryCounts (reduceFold expl vs)) S
  refine ⟨_, reduce_eq_some env key exp_id version vs expl hkey hres,
    ?_, ?_, ?_, ?_⟩
  · show ((addNoAnswerCounts (reduceFold expl vs)
        (addFirstEntryCounts (reduceFold expl vs))).val
          S).no_answer_count = _
    rw [hN.1, hA]
    show ((reduceFold expl vs).state_hit_counts.val S).no_answer_count +
        _ = _
    rw [reduceFold_shc_no_answer expl vs S hnc, zero_add]
    rfl
  · intro hml hret hncomp
    refine List.count_eq_one_of_mem (nodup_abandoningSessionsAt expl vs S)
      ?_
    rw [mem_abandoningSessionsAt]
    exact ⟨hml, hncomp, by rw [hret]⟩
  · intro hcomp
    refine List.count_eq_zero.mpr ?_
    rw [mem_abandoningSessionsAt]
    intro hcon
    exact hcon.2.1 hcomp
  · intro hmem hle htie ht
    exact foldl_retainedStep_latest s t S vs hle htie hmem (0, some "")
      (Or.inl ht)

/-- Witness instantiating C3 (amended) at concrete values: session s1
leaves last at Middle at time 5 and never completes, session s2 leaves at
Middle but completes, so no_answer_count of Middle is 1 and s1 is counted
exactly once. -/
theorem C3_abandonment_attribution_witness :
    ∃ m, StatisticsMRJobManager.reduce sampleEnv "e:all" c3SampleValues =
        some m ∧
      (m.state_hit_counts.val (some "Middle")).no_answer_count =
        ((abandoningSessionsAt sampleExploration c3SampleValues
          (some "Middle")).length : Int) ∧
      (hasMaybeLeave c3SampleValues "s1" = true →
        retainedLeaveOf c3SampleValues "s1" = (5, some "Middle") →
        "s1" ∉ completeSessionsOf c3SampleValues →
        (abandoningSessionsAt sampleExploration c3SampleValues
          (some "Middle")).count "s1" = 1) ∧
      ("s1" ∈ completeSessionsOf c3SampleValues →
        (abandoningSessionsAt sampleExploration c3SampleValues
          (some "Middle")).count "s1" = 0) ∧
      ((∃ eid2 ver2,
          Value.event EVENT_TYPE_MAYBE_LEAVE_EXPLORATION "s1"
            (some "Middle") 5 eid2 ver2 ∈ c3SampleValues) →
        (∀ st2 t2 eid2 ver2,
          Value.event EVENT_TYPE_MAYBE_LEAVE_EXPLORATION "s1" st2 t2 eid2
            ver2 ∈ c3SampleValues → t2 ≤ 5) →
        (∀ st2 t2 eid2 ver2,
          Value.event EVENT_TYPE_MAYBE_LEAVE_EXPLORATION "s1" st2 t2 eid2
            ver2 ∈ c3SampleValues → t2 = 5 → st2 = some "Middle") →
        (0 : Int) < 5 →
        retainedLeaveOf c3SampleValues "s1" = (5, some "Middle")) :=
  C3_abandonment_attribution sampleEnv "e:all" "e" "all" c3SampleValues
    sampleExploration (some "Middle") "s1" 5 (by decide) rfl (by decide)

/-- Counterexample to C3 as stated: session s completes at time 1 and
then emits a maybe-leave at Intro at time 2.  Its retained maybe-leave is
at Intro and there is no complete event with a later timestamp, so the
claim predicts one no_answer_count increment for Intro; but the reduce
step excludes any session with a complete event regardless of order, so
Intro's no_answer_count stays 0. -/
theorem C3_counterexample :
    retainedLeaveOf leaveAfterCompleteValues "s" = (2, some "Intro") ∧
    (∀ v ∈ leaveAfterCompleteValues,
      v.isCompleteEvent = true → v.created_on_of < 2) ∧
    (StatisticsMRJobManager.reduce sampleEnv "e:all"
        leaveAfterCompleteValues).map
      (fun m => (m.state_hit_counts.val (some "Intro")).no_answer_count) =
      some 0 := by
  refine ⟨by decide, by decide, by decide⟩

/-! Claim C4. -/

/-- C4 (amended): processing a legacy counter record, the reduce loop
(1) sets the legacy start count to the record's first_entry_count when its
state is the initial state and leaves it alone otherwise; (2) when the
state is the END pseudostate, sets the legacy completion count and leaves
every bucket untouched; and (3) whenever the state is NOT the END
pseudostate — including when it equals the initial state — folds the
record into that state's bucket: total_entry_count += first + subsequent,
first_entry_count += first, no_answer_count += first + subsequent -
resolved - active, leaving every other bucket unchanged. -/
theorem C4_legacy_counter_processing (e : Exploration) (acc : ReduceAcc)
    (eid ver st : String) (fec sec rac aac : Int) :
    ((st = e.init_state_name →
        (processValue e acc (Value.counter eid ver st fec sec rac
          aac)).old_models_start_count = fec) ∧
      (st ≠ e.init_state_name →
        (processValue e acc (Value.counter eid ver st fec sec rac
          aac)).old_models_start_count = acc.old_models_start_count)) ∧
    ((st = OLD_END_DEST →
        (processValue e acc (Value.counter eid ver st fec sec rac
            aac)).old_models_complete_count = fec ∧
        (processValue e acc (Value.counter eid ver st fec sec rac
          aac)).state_hit_counts = acc.state_hit_counts) ∧
      (st ≠ OLD_END_DEST →
        (processValue e acc (Value.counter eid ver st fec sec rac
            aac)).old_models_complete_count =
          acc.old_models_complete_count ∧
        (processValue e acc (Value.counter eid ver st fec sec rac
            aac)).state_hit_counts.val (some st) =
          { total_entry_count :=
              (acc.state_hit_counts.val (some st)).total_entry_count +
                (fec + sec)
            first_entry_count :=
              (acc.state_hit_counts.val (some st)).first_entry_count + fec
            no_answer_count :=
              (acc.state_hit_counts.val (some st)).no_answer_count +
                (fec + sec - rac - aac) } ∧
        ∀ k, k ≠ some st →
          (processValue e acc (Value.counter eid ver st fec sec rac
            aac)).state_hit_counts.val k =
            acc.state_hit_counts.val k)) := by
  refine ⟨⟨?_, ?_⟩, ?_, ?_⟩
  · intro h
    simp only [processValue, if_pos h]
    split_ifs <;> rfl
  · intro h
    simp only [processValue, if_neg h]
    split_ifs <;> rfl
  · intro h
    subst h
    simp only [processValue, eq_self_iff_true, if_true]
    split_ifs <;> exact ⟨trivial, rfl⟩
  · intro h
    refine ⟨?_, ?_, ?_⟩
    · simp only [processValue, if_neg h]
      split_ifs <;> rfl
    · simp only [processValue, if_neg h]
      split_ifs <;> simp [DMap.val_set]
    · intro k hk
      simp only [processValue, if_neg h]
      split_ifs <;> simp [DMap.val_set, if_neg hk]

/-- Witness instantiating C4 (amended) at a concrete record whose state is
the initial state: the legacy start count becomes 5 AND the record is
folded into the Intro bucket. -/
theorem C4_legacy_counter_processing_witness :
    (processValue sampleExploration (initAcc sampleExploration)
        (Value.counter "e" "none" "Intro" 5 2 1 1)).old_models_start_count
        = 5 ∧
    (processValue sampleExploration (initAcc sampleExploration)
        (Value.counter "e" "none" "Intro" 5 2 1
          1)).state_hit_counts.val (some "Intro") = ⟨7, 5, 5⟩ := by
  constructor
  · exact (C4_legacy_counter_processing sampleExploration
      (initAcc sampleExploration) "e" "none" "Intro" 5 2 1 1).1.1 rfl
  · have h := ((C4_legacy_counter_processing sampleExploration
      (initAcc sampleExploration) "e" "none" "Intro" 5 2 1 1).2.2
      (by decide)).2.1
    rw [h, initAcc_shc_val]
    decide

/-- Counterexample to C4 as stated: a legacy counter record at the
initial state (Intro, which differs from END) is, per the claim's "only
otherwise", not supposed to be folded into any bucket, so the Intro
bucket's first_entry_count would stay 0; the reduce step folds it anyway,
leaving first_entry_count = 5. -/
theorem C4_counterexample :
    (StatisticsMRJobManager.reduce sampleEnv "e:all"
        [Value.counter "e" "none" "Intro" 5 0 0 0]).map
      (fun m => (m.state_hit_counts.val (some "Intro")).first_entry_count)
      = some 5 ∧
    (StatisticsMRJobManager.reduce sampleEnv "e:all"
        [Value.counter "e" "none" "Intro" 5 0 0 0]).map
      (fun m => (m.state_hit_counts.val (some "Intro")).first_entry_count)
      ≠ some 0 := by
  refine ⟨by decide, by decide⟩

/-! Claim C5. -/

/-- C5 (amended): an event-origin value with a null state name still
counts toward the start or completion totals — a start or complete event
touches neither state_hit_counts nor the per-state session sets — but a
state-hit event with a null state name is NOT skipped for per-state
accounting: it creates/updates a bucket keyed by the null state name,
incrementing that bucket's total_entry_count. -/
theorem C5_null_state_name_events (e : Exploration) (acc : ReduceAcc)
    (session_id : String) (created_on : Int) (eid ver : String) :
    ((processValue e acc (Value.event EVENT_TYPE_START_EXPLORATION
        session_id none created_on eid ver)).state_hit_counts =
        acc.state_hit_counts ∧
      (processValue e acc (Value.event EVENT_TYPE_START_EXPLORATION
        session_id none created_on eid ver)).state_session_ids =
        acc.state_session_ids ∧
      (processValue e acc (Value.event EVENT_TYPE_START_EXPLORATION
        session_id none created_on eid ver)).new_models_start_count =
        acc.new_models_start_count + 1 ∧
      (processValue e acc (Value.event EVENT_TYPE_START_EXPLORATION
        session_id none created_on eid ver)).new_models_complete_count =
        acc.new_models_complete_count) ∧
    ((processValue e acc (Value.event EVENT_TYPE_COMPLETE_EXPLORATION
        session_id none created_on eid ver)).state_hit_counts =
        acc.state_hit_counts ∧
      (processValue e acc (Value.event EVENT_TYPE_COMPLETE_EXPLORATION
        session_id none created_on eid ver)).state_session_ids =
        acc.state_session_ids ∧
      (processValue e acc (Value.event EVENT_TYPE_COMPLETE_EXPLORATION
        session_id none created_on eid ver)).new_models_complete_count =
        acc.new_models_complete_count + 1 ∧
      (processValue e acc (Value.event EVENT_TYPE_COMPLETE_EXPLORATION
        session_id none created_on eid ver)).new_models_start_count =
        acc.new_models_start_count) ∧
    (none ∈ (processValue e acc (Value.event EVENT_TYPE_STATE_HIT
        session_id none created_on eid ver)).state_hit_counts.keys ∧
      ((processValue e acc (Value.event EVENT_TYPE_STATE_HIT session_id
          none created_on eid ver)).state_hit_counts.val
        none).total_entry_count =
        (acc.state_hit_counts.val none).total_entry_count + 1) := by
  refine ⟨⟨?_, ?_, ?_, ?_⟩, ⟨?_, ?_, ?_, ?_⟩, ?_, ?_⟩
  · simp [processValue]
  · simp [processValue]
  · simp [processValue]
  · simp [processValue]
  · simp [processValue, start_ne_complete.symm]
  · simp [processValue, start_ne_complete.symm]
  · simp [processValue, start_ne_complete.symm]
  · simp [processValue, start_ne_complete.symm]
  · simp only [processValue, if_neg start_ne_hit.symm,
      if_neg complete_ne_hit.symm, if_neg leave_ne_hit.symm,
      eq_self_iff_true, if_true]
    rw [DMap.mem_keys_set]
    exact Or.inr rfl
  · simp only [processValue, if_neg start_ne_hit.symm,
      if_neg complete_ne_hit.symm, if_neg leave_ne_hit.symm,
      eq_self_iff_true, if_true]
    simp [DMap.val_set]

/-- Witness instantiating C5 (amended): a null-state start event
increments the start total, and a null-state state-hit event creates the
null-keyed bucket. -/
theorem C5_null_state_name_events_witness :
    (processValue sampleExploration (initAcc sampleExploration)
        (Value.event EVENT_TYPE_START_EXPLORATION "s1" none 5 "e"
          "3")).new_models_start_count =
      (initAcc sampleExploration).new_models_start_count + 1 ∧
    none ∈ (processValue sampleExploration (initAcc sampleExploration)
        (Value.event EVENT_TYPE_STATE_HIT "s1" none 5 "e"
          "3")).state_hit_counts.keys :=
  ⟨(C5_null_state_name_events sampleExploration (initAcc sampleExploration)
      "s1" 5 "e" "3").1.2.2.1,
   (C5_null_state_name_events sampleExploration (initAcc sampleExploration)
      "s1" 5 "e" "3").2.2.1⟩

/-- Counterexample to C5 as stated: a state-hit event with a null state
name is claimed to create or modify no bucket of state_hit_counts; the
reduce step instead records a bucket under the null key with
total_entry_count 1. -/
theorem C5_counterexample :
    (StatisticsMRJobManager.reduce sampleEnv "e:all"
        [Value.event EVENT_TYPE_STATE_HIT "s1" none 5 "e" "3"]).map
      (fun m => m.state_hit_counts.keys.contains none) = some true ∧
    (StatisticsMRJobManager.reduce sampleEnv "e:all"
        [Value.event EVENT_TYPE_STATE_HIT "s1" none 5 "e" "3"]).map
      (fun m => (m.state_hit_counts.val none).total_entry_count) =
      some 1 := by
  refine ⟨by decide, by decide⟩

/-! Claim C6. -/

/-- C6: a map input entity created before the job's cutoff is emitted
under exactly two keys — its specific version-scope key (with a null
version mapped to the none scope) and the all-versions key — both
carrying the same value and never a third key; an entity created at or
after the cutoff is not emitted at all. -/
theorem C6_map_two_keys (cutoff : Int) (item : MapItem) :
    (entityCreatedBeforeJobQueued cutoff item.created_on_of = true →
      ∃ value, StatisticsMRJobManager.map cutoff item =
        [(item.exploration_id_of ++ ":" ++ item.version_scope_of, value),
         (item.exploration_id_of ++ ":" ++ VERSION_ALL, value)]) ∧
    (entityCreatedBeforeJobQueued cutoff item.created_on_of = false →
      StatisticsMRJobManager.map cutoff item = []) := by
  cases item with
  | stateCounter id created_on fec sec rac aac =>
    constructor
    · intro h
      simp only [MapItem.created_on_of] at h
      refine ⟨Value.counter (parseCounterId id).1 VERSION_NONE
        (parseCounterId id).2 fec sec rac aac, ?_⟩
      simp [StatisticsMRJobManager.map,
        MapItem.exploration_id_of, MapItem.version_scope_of, h]
    · intro h
      simp only [MapItem.created_on_of] at h
      simp [StatisticsMRJobManager.map, h]
  | eventLog et sid st created_on eid ever =>
    cases ever with
    | none =>
      constructor
      · intro h
        simp only [MapItem.created_on_of] at h
        refine ⟨Value.event et sid st created_on eid VERSION_NONE, ?_⟩
        simp [StatisticsMRJobManager.map,
          MapItem.exploration_id_of, MapItem.version_scope_of, h]
      · intro h
        simp only [MapItem.created_on_of] at h
        simp [StatisticsMRJobManager.map, h]
    | some n =>
      constructor
      · intro h
        simp only [MapItem.created_on_of] at h
        refine ⟨Value.event et sid st created_on eid (toString n), ?_⟩
        simp [StatisticsMRJobManager.map,
          MapItem.exploration_id_of, MapItem.version_scope_of, h]
      · intro h
        simp only [MapItem.created_on_of] at h
        simp [StatisticsMRJobManager.map, h]

/-- Witness instantiating C6 on one entity created before the cutoff (a
counter, emitted under its two keys) and one created after it (an event,
emitted under none). -/
theorem C6_map_two_keys_witness :
    (∃ value, StatisticsMRJobManager.map 10
        (MapItem.stateCounter "e.Intro" 5 1 2 3 4) =
      [((MapItem.stateCounter "e.Intro" 5 1 2 3 4).exploration_id_of ++
          ":" ++
          (MapItem.stateCounter "e.Intro" 5 1 2 3 4).version_scope_of,
        value),
       ((MapItem.stateCounter "e.Intro" 5 1 2 3 4).exploration_id_of ++
          ":" ++ VERSION_ALL, value)]) ∧
    StatisticsMRJobManager.map 10
      (MapItem.eventLog EVENT_TYPE_START_EXPLORATION "s" (some "Intro") 20
        "e" (some 3)) = [] :=
  ⟨(C6_map_two_keys 10 (MapItem.stateCounter "e.Intro" 5 1 2 3 4)).1
      (by decide),
   (C6_map_two_keys 10
      (MapItem.eventLog EVENT_TYPE_START_EXPLORATION "s" (some "Intro") 20
        "e" (some 3))).2 (by decide)⟩

/-! Claim C8. -/

/-- C8: get_views_multi returns one entry per requested exploration id,
and its i-th entry equals the start_exploration_count of get_statistics
for the i-th id under the all-versions scope — the positional sum of the
canonical snapshot's num_starts (0 if absent) and the live counter's
num_starts (0 if absent). -/
theorem C8_get_views_multi_matches_get_statistics (env : QueryEnv)
    (exploration_ids : List String) (i : Nat)
    (h : i < exploration_ids.length) :
    (StatisticsAggregator.get_views_multi env exploration_ids).length =
        exploration_ids.length ∧
      (StatisticsAggregator.get_views_multi env exploration_ids).getD i 0 =
        (StatisticsAggregator.get_statistics env
          (exploration_ids.getD i "")
          VERSION_ALL).start_exploration_count := by
  constructor
  · simp [StatisticsAggregator.get_views_multi]
  · have hx : exploration_ids.getD i "" = exploration_ids[i] := by
      simp [List.getD_eq_getElem?_getD, List.getElem?_eq_getElem h]
    rw [hx]
    simp only [StatisticsAggregator.get_views_multi,
      StatisticsAggregator.get_statistics]
    rw [List.getD_eq_getElem?_getD, List.getElem?_map,
      List.getElem?_range h]
    simp only [Option.map_some', Option.getD_some]
    rw [List.getD_eq_getElem?_getD, List.getElem?_map, List.getElem?_map,
      List.getElem?_eq_getElem h, List.getD_eq_getElem?_getD,
      List.getElem?_map, List.getElem?_map, List.getElem?_eq_getElem h]
    simp only [Option.map_some', Option.getD_some]
    cases env.annotations_store
        (getEntityId exploration_ids[i] VERSION_ALL) <;>
      cases env.realtime_store
          (env.active_realtime_layer_id exploration_ids[i]) <;>
        simp

/-- Witness instantiating C8: two explorations, e1 with 3 canonical and 2
live starts; index 0 reads 5. -/
theorem C8_get_views_multi_matches_get_statistics_witness :
    ((StatisticsAggregator.get_views_multi sampleQueryEnv
        ["e1", "e2"]).length = (["e1", "e2"] : List String).length ∧
      (StatisticsAggregator.get_views_multi sampleQueryEnv
          ["e1", "e2"]).getD 0 0 =
        (StatisticsAggregator.get_statistics sampleQueryEnv
          ((["e1", "e2"] : List String).getD 0 "")
          VERSION_ALL).start_exploration_count) ∧
    StatisticsAggregator.get_views_multi sampleQueryEnv ["e1", "e2"] =
      [5, 0] :=
  ⟨C8_get_views_multi_matches_get_statistics sampleQueryEnv ["e1", "e2"] 0
      (by decide),
   by decide⟩

/-! Claim C9. -/

/-- C9: handling a start-exploration event creates the realtime counter
for (layer, exploration id) with num_starts 1 and the default
num_completions 0 when it is absent, and otherwise increments exactly
num_starts; symmetrically for a complete-exploration event; no other key
of the realtime store changes. -/
theorem C9_realtime_counter_increment (store : RtStore)
    (active_realtime_layer : Nat) (exp_id : String) :
    ((store (getRealtimeId active_realtime_layer exp_id) = none →
        StatisticsAggregator.handle_incoming_event store
          active_realtime_layer EVENT_TYPE_START_EXPLORATION exp_id
          (getRealtimeId active_realtime_layer exp_id) =
          some { num_starts := 1, num_completions := 0 }) ∧
      (∀ model, store (getRealtimeId active_realtime_layer exp_id) =
          some model →
        StatisticsAggregator.handle_incoming_event store
          active_realtime_layer EVENT_TYPE_START_EXPLORATION exp_id
          (getRealtimeId active_realtime_layer exp_id) =
          some { model with num_starts := model.num_starts + 1 })) ∧
    ((store (getRealtimeId active_realtime_layer exp_id) = none →
        StatisticsAggregator.handle_incoming_event store
          active_realtime_layer EVENT_TYPE_COMPLETE_EXPLORATION exp_id
          (getRealtimeId active_realtime_layer exp_id) =
          some { num_starts := 0, num_completions := 1 }) ∧
      (∀ model, store (getRealtimeId active_realtime_layer exp_id) =
          some model →
        StatisticsAggregator.handle_incoming_event store
          active_realtime_layer EVENT_TYPE_COMPLETE_EXPLORATION exp_id
          (getRealtimeId active_realtime_layer exp_id) =
          some { model with
            num_completions := model.num_completions + 1 })) ∧
    (∀ k, k ≠ getRealtimeId active_realtime_layer exp_id →
      StatisticsAggregator.handle_incoming_event store
          active_realtime_layer EVENT_TYPE_START_EXPLORATION exp_id k =
        store k ∧
      StatisticsAggregator.handle_incoming_event store
          active_realtime_layer EVENT_TYPE_COMPLETE_EXPLORATION exp_id k =
        store k) := by
  refine ⟨⟨?_, ?_⟩, ⟨?_, ?_⟩, ?_⟩
  · intro h
    simp [StatisticsAggregator.handle_incoming_event, h]
  · intro model h
    simp [StatisticsAggregator.handle_incoming_event, h]
  · intro h
    simp [StatisticsAggregator.handle_incoming_event,
      start_ne_complete.symm, h]
  · intro model h
    simp [StatisticsAggregator.handle_incoming_event,
      start_ne_complete.symm, h]
  · intro k hk
    constructor <;>
      simp [StatisticsAggregator.handle_incoming_event,
        start_ne_complete.symm, hk]

/-- Witness instantiating C9: creation from an empty store and an
increment of an existing counter. -/
theorem C9_realtime_counter_increment_witness :
    StatisticsAggregator.handle_incoming_event (fun _ => none) 0
        EVENT_TYPE_START_EXPLORATION "e1" (getRealtimeId 0 "e1") =
      some { num_starts := 1, num_completions := 0 } ∧
    StatisticsAggregator.handle_incoming_event
        (fun _ => some { num_starts := 4, num_completions := 2 }) 0
        EVENT_TYPE_COMPLETE_EXPLORATION "e1" (getRealtimeId 0 "e1") =
      some { num_starts := 4, num_completions := 3 } :=
  ⟨(C9_realtime_counter_increment (fun _ => none) 0 "e1").1.1 rfl,
   (C9_realtime_counter_increment
      (fun _ => some { num_starts := 4, num_completions := 2 }) 0
      "e1").2.1.2 { num_starts := 4, num_completions := 2 } rfl⟩

/-! Claim C10. -/

/-- C10: on a well-formed key and a non-empty input list, the combined
answers record concatenates every input element's submitted_answer_list
(so its length is the sum of the inputs' lengths) and takes its
interaction id solely from the first element; the calculations run are
exactly those registered for the first element's interaction id, applied
to the combined record, even when later elements carry a different
interaction id. -/
theorem C10_answer_summaries_reduce {α ω : Type} (env : AnswersJobEnv α ω)
    (key exploration_id exploration_version state_name : String)
    (state_answers_dicts : List (StateAnswersDict α))
    (hkey : splitOnChar ':' key =
      [exploration_id, exploration_version, state_name])
    (hne : state_answers_dicts ≠ []) :
    ∃ combined outputs,
      InteractionAnswerSummariesMRJobManager.reduce env key
          state_answers_dicts = some (combined, outputs) ∧
      combined.submitted_answer_list =
        (state_answers_dicts.map
          (fun d => d.submitted_answer_list)).flatten ∧
      combined.submitted_answer_list.length =
        (state_answers_dicts.map
          (fun d => d.submitted_answer_list.length)).sum ∧
      combined.interaction_id =
        (state_answers_dicts.head hne).interaction_id ∧
      outputs = (env.answer_calculation_ids
          (state_answers_dicts.head hne).interaction_id).map
        (fun calc_id =>
          env.calculate_from_state_answers_dict calc_id combined) := by
  match state_answers_dicts, hne with
  | first :: rest, _ =>
    refine ⟨{ exploration_id := exploration_id
              exploration_version := exploration_version
              state_name := state_name
              interaction_id := first.interaction_id
              submitted_answer_list :=
                ((first :: rest).map
                  (fun d => d.submitted_answer_list)).flatten },
      (env.answer_calculation_ids first.interaction_id).map
        (fun calc_id => env.calculate_from_state_answers_dict calc_id
          { exploration_id := exploration_id
            exploration_version := exploration_version
            state_name := state_name
            interaction_id := first.interaction_id
            submitted_answer_list :=
              ((first :: rest).map
                (fun d => d.submitted_answer_list)).flatten }),
      ?_, rfl, ?_, rfl, rfl⟩
    · simp [InteractionAnswerSummariesMRJobManager.reduce, hkey]
    · simp only [List.length_flatten, List.map_map]
      rfl

/-- Witness instantiating C10: two answer batches with different
interaction ids; the combined list is their concatenation and the single
calculation registered for the first batch's interaction id runs on it. -/
theorem C10_answer_summaries_reduce_witness :
    ∃ combined outputs,
      InteractionAnswerSummariesMRJobManager.reduce sampleAnswersEnv
          "e:all:Intro" c10SampleAnswers = some (combined, outputs) ∧
      combined.submitted_answer_list = ["a", "b", "c"] ∧
      combined.submitted_answer_list.length = 3 ∧
      combined.interaction_id = "TextInput" ∧
      outputs = [3] := by
  obtain ⟨c, o, h1, h2, h3, h4, h5⟩ := C10_answer_summaries_reduce
    sampleAnswersEnv "e:all:Intro" "e" "all" "Intro" c10SampleAnswers
    (by decide) (by simp [c10SampleAnswers])
  refine ⟨c, o, h1, ?_, ?_, ?_, ?_⟩
  · rw [h2]
    decide
  · rw [h3]
    decide
  · rw [h4]
    decide
  · rw [h5]
    simp [sampleAnswersEnv, c10SampleAnswers, h2]

end Oppia
